import Mathlib

/-!
# QtWebsocket: `QWsServer`

A shallow embedding of `src/QtWebSocket/QWsServer.cpp`: the frame codec
(`composeFrame`, `decodeFrame`), the accept token (`computeAcceptV8`), the
pending-connection queue and the handshake slot `dataReceived`.

Conventions of the embedding:

* a `QByteArray` is a list of bytes, each byte a natural number below 256;
* a `QString` is a list of UTF-16 code units;
* a `quint8` variable holds a natural number reduced modulo 256 at every store;
* a socket that is read from is the list of bytes it still has available, and
  `read n` splits off at most `n` of them;
* the Qt library functions the source calls are given as small models of their
  documented Qt 4 behaviour, in the section `Qt`.
-/

set_option autoImplicit false
set_option linter.unusedVariables false
set_option maxRecDepth 100000

namespace QtWebSocket

/-- Sequence of bytes (`QByteArray`). -/
abbrev QByteArray := List Nat

/-- Sequence of UTF-16 code units (`QString`). -/
abbrev QString := List Nat

/-- Every element of the array is a byte. -/
abbrev isBytes (ba : QByteArray) : Prop := ∀ b ∈ ba, b < 256

namespace Qt

/-- Reading `BA[i]` as a `char` (`QByteRef::operator char`): the stored byte, and
`char(0)` when `i` is past the end. -/
def byteAt (ba : QByteArray) (i : Nat) : Nat := ba.getD i 0

/-- Storing through `BA[i] = c` (`QByteRef::operator=`): overwrites in place, and
when `i` is past the end the array is first resized to `i + 1` bytes. The loop
of `decodeFrame` only ever stores at `i ≤ size`, so the filler of a resize by
more than one byte never appears in a result. -/
def setByte (ba : QByteArray) (i : Nat) (c : Nat) : QByteArray :=
  if i < ba.length then ba.set i c
  else ba ++ List.replicate (i - ba.length) 0 ++ [c]

/-- The call `socket->read(maxSize)` (`QIODevice::read`): at most `maxSize` of the
available bytes, and the bytes left in the device afterwards. -/
def read (maxSize : Nat) (socket : QByteArray) : QByteArray × QByteArray :=
  (socket.take maxSize, socket.drop maxSize)

/-- The constructor `QString(const QByteArray &)`, which every conversion of a
byte array to a string in the source goes through. Qt 4 documents it as: the
byte array is converted to Unicode using `fromAscii()` (Latin-1 unless a codec
was installed: one code unit per byte, of the same value), and it "stops
copying at the first 0 character, otherwise copies the entire byte array". -/
def fromAscii (ba : QByteArray) : QString :=
  ba.takeWhile (fun b => b != 0)

/-- The conversion `QString::toAscii()` (Latin-1): one byte per code unit, a code
unit above 0xFF becomes a question mark. -/
def toAscii (s : QString) : QByteArray :=
  s.map (fun c => if c < 256 then c else 0x3F)

/-- The function `QByteArray::number(n)` in base 10: the decimal digits of `n` as
ASCII text. -/
def number (n : Nat) : QByteArray :=
  (Nat.toDigits 10 n).map Char.toNat

/-- White space of the C locale, skipped in front of a number. -/
def isSpace (c : Nat) : Bool :=
  c == 0x20 || (0x09 ≤ c && c ≤ 0x0D)

/-- ASCII decimal digit. -/
def isDigit (c : Nat) : Bool :=
  0x30 ≤ c && c ≤ 0x39

/-- Value of a run of decimal digits, most significant first. -/
def digitsValue (ds : List Nat) : Nat :=
  ds.foldl (fun acc c => 10 * acc + (c - 0x30)) 0

/-- The conversion `QByteArray::toULongLong()` in base 10: the array is read as
text up to its first 0 byte; leading white space and one `+` are skipped; what
remains has to be a non-empty run of decimal digits whose value fits 64 bits.
The result is 0 when the conversion fails. -/
def toULongLong (ba : QByteArray) : Nat :=
  let text := ba.takeWhile (fun b => b != 0)
  let text := text.dropWhile isSpace
  let text := match text with
    | 0x2B :: rest => rest
    | other => other
  if text ≠ [] ∧ text.all isDigit ∧ digitsValue text < 2 ^ 64 then digitsValue text else 0

/-- The conversion `QByteArray::toUShort()` in base 10: as `toULongLong`, and 0
when the value does not fit 16 bits. -/
def toUShort (ba : QByteArray) : Nat :=
  let v := toULongLong ba
  if v > 0xFFFF then 0 else v

/-- Code units of a string literal of the source. -/
def ofString (s : String) : QString :=
  s.toList.map Char.toNat

/-- The conversion `QString::toUtf8()`, code unit by code unit: one byte below
0x80, two bytes below 0x800, three bytes otherwise. Surrogate pairs are not
combined here (every string `dataReceived` builds has its code units below
256). -/
def toUtf8 (s : QString) : QByteArray :=
  s.flatMap (fun u =>
    if u < 0x80 then [u]
    else if u < 0x800 then [0xC0 ||| (u >>> 6), 0x80 ||| (u &&& 0x3F)]
    else [0xE0 ||| ((u >>> 12) &&& 0x0F), 0x80 ||| ((u >>> 6) &&& 0x3F), 0x80 ||| (u &&& 0x3F)])

/-- The call `QString::split(sep)` with empty parts kept: the fields between the
separators; `cur` is the field being read, reversed. -/
def splitAux (sep : Nat) : List Nat → List Nat → List QString
  | [], cur => [cur.reverse]
  | c :: cs, cur =>
      if c = sep then cur.reverse :: splitAux sep cs [] else splitAux sep cs (c :: cur)

/-- The call `QString::split(sep)`; the empty string gives one empty field. -/
def split (sep : Nat) (s : QString) : List QString :=
  splitAux sep s []

/-- Rotation of a 32-bit word to the left by `n` bits. -/
def rotl32 (n x : Nat) : Nat :=
  ((x <<< n) ||| (x >>> (32 - n))) % 2 ^ 32

/-- The `n` low bytes of `x`, most significant first. -/
def bigEndian : Nat → Nat → List Nat
  | 0, _ => []
  | n + 1, x => (x >>> (8 * n)) % 256 :: bigEndian n x

/-- Value of a run of bytes read most significant first. -/
def ofBigEndian (bs : List Nat) : Nat :=
  bs.foldl (fun acc b => acc * 256 + b) 0

/-- SHA-1 padding: the byte 0x80, zero bytes up to 56 modulo 64, and the length
in bits on 8 bytes. -/
def sha1Pad (msg : QByteArray) : QByteArray :=
  let l := msg.length
  msg ++ [0x80] ++ List.replicate ((119 - l % 64) % 64) 0 ++ bigEndian 8 (8 * l)

/-- The first `n` 32-bit words of a byte sequence. -/
def toWords : Nat → List Nat → List Nat
  | 0, _ => []
  | n + 1, bs => ofBigEndian (bs.take 4) :: toWords n (bs.drop 4)

/-- The logical function and the constant of round `t` of SHA-1. -/
def sha1F (t b c d : Nat) : Nat × Nat :=
  if t < 20 then ((b &&& c) ||| ((b ^^^ 0xFFFFFFFF) &&& d), 0x5A827999)
  else if t < 40 then (b ^^^ c ^^^ d, 0x6ED9EBA1)
  else if t < 60 then ((b &&& c) ||| (b &&& d) ||| (c &&& d), 0x8F1BBCDC)
  else (b ^^^ c ^^^ d, 0xCA62C1D6)

/-- State of the SHA-1 compression loop: the five working words and the sixteen
schedule words starting at the current round. -/
structure Sha1Work where
  a : Nat
  b : Nat
  c : Nat
  d : Nat
  e : Nat
  w : List Nat

/-- One round of SHA-1: consumes the schedule word at the head of the window
and appends the word sixteen rounds ahead. -/
def sha1Round (s : Sha1Work) (t : Nat) : Sha1Work :=
  let wt := s.w.getD 0 0
  let next := rotl32 1 (s.w.getD 13 0 ^^^ s.w.getD 8 0 ^^^ s.w.getD 2 0 ^^^ wt)
  let fk := sha1F t s.b s.c s.d
  let temp := (rotl32 5 s.a + fk.1 + s.e + fk.2 + wt) % 2 ^ 32
  { a := temp, b := s.a, c := rotl32 30 s.b, d := s.c, e := s.d, w := s.w.drop 1 ++ [next] }

/-- Compression of one 64-byte block into the chaining value `h`. -/
def sha1Block (h : List Nat) (block : List Nat) : List Nat :=
  let s0 : Sha1Work :=
    { a := h.getD 0 0, b := h.getD 1 0, c := h.getD 2 0, d := h.getD 3 0, e := h.getD 4 0,
      w := toWords 16 block }
  let s := (List.range 80).foldl sha1Round s0
  [(h.getD 0 0 + s.a) % 2 ^ 32, (h.getD 1 0 + s.b) % 2 ^ 32, (h.getD 2 0 + s.c) % 2 ^ 32,
   (h.getD 3 0 + s.d) % 2 ^ 32, (h.getD 4 0 + s.e) % 2 ^ 32]

/-- The first `n` 64-byte blocks of a padded message. -/
def sha1Blocks : Nat → List Nat → List (List Nat)
  | 0, _ => []
  | n + 1, bs => bs.take 64 :: sha1Blocks n (bs.drop 64)

/-- The call `QCryptographicHash::hash(data, QCryptographicHash::Sha1)`: the
20-byte SHA-1 digest of `data`. -/
def sha1 (data : QByteArray) : QByteArray :=
  let padded := sha1Pad data
  let h := (sha1Blocks (padded.length / 64) padded).foldl sha1Block
    [0x67452301, 0xEFCDAB89, 0x98BADCFE, 0x10325476, 0xC3D2E1F0]
  h.flatMap (bigEndian 4)

/-- The base64 alphabet: the character of the 6-bit value `v`. -/
def base64Char (v : Nat) : Nat :=
  if v < 26 then 0x41 + v
  else if v < 52 then 0x61 + (v - 26)
  else if v < 62 then 0x30 + (v - 52)
  else if v = 62 then 0x2B
  else 0x2F

/-- The conversion `QByteArray::toBase64()`: standard alphabet, padded with `=`. -/
def toBase64 : QByteArray → QByteArray
  | [] => []
  | [x] => [base64Char (x >>> 2), base64Char ((x &&& 3) <<< 4), 0x3D, 0x3D]
  | [x, y] =>
      [base64Char (x >>> 2), base64Char (((x &&& 3) <<< 4) ||| (y >>> 4)),
       base64Char ((y &&& 15) <<< 2), 0x3D]
  | x :: y :: z :: rest =>
      base64Char (x >>> 2) :: base64Char (((x &&& 3) <<< 4) ||| (y >>> 4)) ::
      base64Char (((y &&& 15) <<< 2) ||| (z >>> 6)) :: base64Char (z &&& 63) :: toBase64 rest

end Qt

/-! ## Frame codec -/

/-- One pass of the unmasking loop of `decodeFrame`:
`ApplicationData[i] = ( ApplicationData[i] ^ MaskingKey[ i % 4 ] )`. -/
def unmaskStep (MaskingKey : QByteArray) (ApplicationData : QByteArray) (i : Nat) :
    QByteArray :=
  Qt.setByte ApplicationData i
    ((Qt.byteAt ApplicationData i ^^^ Qt.byteAt MaskingKey (i % 4)) % 256)

/-- The unmasking loop of `decodeFrame`:
`for ( int i=0 ; i<PayloadLength ; i++ )` over `unmaskStep`. -/
def unmask (PayloadLength : Nat) (MaskingKey ApplicationData : QByteArray) : QByteArray :=
  (List.range PayloadLength).foldl (unmaskStep MaskingKey) ApplicationData

/-- The local variables of `decodeFrame` once it has run. -/
structure DecodedFrame where
  FIN : Nat
  RSV1 : Nat
  RSV2 : Nat
  RSV3 : Nat
  Opcode : Nat
  Mask : Nat
  /-- The 7-bit field of the second byte. -/
  PayloadLen7 : Nat
  /-- The `quint8 PayloadLength` used to read the payload. -/
  PayloadLength : Nat
  MaskingKey : QByteArray
  ApplicationData : QByteArray
  /-- What is left in the socket. -/
  rest : QByteArray
  deriving DecidableEq, Repr

/-- The body of `QWsServer::decodeFrame`, statement by statement, on the bytes
available in the socket. -/
def decodeFrameVars (socket : QByteArray) : DecodedFrame :=
  -- FIN, RSV1-3, Opcode
  let r0 := Qt.read 1 socket
  let byte0 := Qt.byteAt r0.1 0 % 256
  let FIN := byte0 >>> 7
  let RSV1 := (byte0 &&& 0x7F) >>> 6
  let RSV2 := (byte0 &&& 0x3F) >>> 5
  let RSV3 := (byte0 &&& 0x1F) >>> 4
  let Opcode := byte0 &&& 0x0F
  -- Mask, PayloadLength
  let r1 := Qt.read 1 r0.2
  let byte1 := Qt.byteAt r1.1 0 % 256
  let Mask := byte1 >>> 7
  let PayloadLen7 := byte1 &&& 0x7F
  -- Extended PayloadLength
  let ext : Nat × QByteArray :=
    if PayloadLen7 = 126 then
      let r := Qt.read 2 r1.2
      (Qt.toUShort r.1 % 256, r.2)
    else if PayloadLen7 = 127 then
      let r := Qt.read 8 r1.2
      (Qt.toULongLong r.1 % 256, r.2)
    else (PayloadLen7, r1.2)
  let PayloadLength := ext.1
  -- MaskingKey
  let key : QByteArray × QByteArray :=
    if Mask ≠ 0 then Qt.read 4 ext.2 else ([], ext.2)
  let MaskingKey := key.1
  -- ApplicationData
  let data := Qt.read PayloadLength key.2
  let ApplicationData :=
    if Mask ≠ 0 then unmask PayloadLength MaskingKey data.1 else data.1
  { FIN := FIN, RSV1 := RSV1, RSV2 := RSV2, RSV3 := RSV3, Opcode := Opcode,
    Mask := Mask, PayloadLen7 := PayloadLen7, PayloadLength := PayloadLength,
    MaskingKey := MaskingKey, ApplicationData := ApplicationData, rest := data.2 }

/-- The function `QWsServer::decodeFrame`: the returned `QString( ApplicationData )`
and the bytes left unread in the socket. -/
def decodeFrame (socket : QByteArray) : QString × QByteArray :=
  let v := decodeFrameVars socket
  (Qt.fromAscii v.ApplicationData, v.rest)

/-- The function `QWsServer::composeFrame`. The parameter `maxFrameBytes` is not
used by the source. -/
def composeFrame (message : QString) (maxFrameBytes : Int) : QByteArray :=
  let messageSize := message.length
  let BA : QByteArray := []
  -- FIN, RSV1-3, Opcode
  let byte := 0x00
  let byte := if message.length < 126 then (byte ||| 0x80) ||| 0x01 else byte
  let BA := BA ++ [byte]
  -- Mask, PayloadLength
  let byte := 0x00
  if messageSize < 126 then
    let sz := messageSize % 256
    let byte := byte ||| sz
    let BA := BA ++ [byte]
    BA ++ Qt.toAscii message
  else
    -- 2 bytes
    if messageSize ≤ 0xFFFF then
      let BAtmp := Qt.number (messageSize % 65536)
      let BA := BA ++ BAtmp
      BA ++ Qt.toAscii message
    -- 8 bytes
    else if messageSize < 0xFFFF then
      let BAtmp := Qt.number (messageSize % 2 ^ 64)
      let BA := BA ++ BAtmp
      BA ++ Qt.toAscii message
    -- BUG, STOP
    else
      []


/-- The byte the unmasking loop leaves at index `i`. -/
def unmaskedByte (K AD : QByteArray) (i : Nat) : Nat :=
  (Qt.byteAt AD i ^^^ Qt.byteAt K (i % 4)) % 256

/-- The payload a masked frame carries according to the wire layout: byte `i` of
the wire payload XOR byte `i mod 4` of the masking key. -/
def xorWithKey (key data : QByteArray) : QByteArray :=
  (List.range data.length).map (fun i => data.getD i 0 ^^^ key.getD (i % 4) 0)

/-! ## Handshake and pending connections -/

/-- The constant `QWsServer::regExpResourceNameStr`. -/
def regExpResourceNameStr : QString := Qt.ofString "GET\\s(.*)\\sHTTP/1.1\r\n"

/-- The constant `QWsServer::regExpHostStr`. -/
def regExpHostStr : QString := Qt.ofString "Host:\\s(.+:\\d+)\r\n"

/-- The constant `QWsServer::regExpKeyStr`. -/
def regExpKeyStr : QString := Qt.ofString "Sec-WebSocket-Key:\\s(.\x7b24\x7d)\r\n"

/-- The constant `QWsServer::regExpVersionStr`. -/
def regExpVersionStr : QString := Qt.ofString "Sec-WebSocket-Version:\\s(\\d)\r\n"

/-- The constant `QWsServer::regExpOriginStr`. -/
def regExpOriginStr : QString := Qt.ofString "Sec-WebSocket-Origin:\\s(.+)\r\n"

/-- The constant `QWsServer::regExpProtocolStr`. -/
def regExpProtocolStr : QString := Qt.ofString "Sec-WebSocket-Protocol:\\s(.+)\r\n"

/-- The constant `QWsServer::regExpExtensionsStr`. -/
def regExpExtensionsStr : QString := Qt.ofString "Sec-WebSocket-Extensions:\\s(.+)\r\n"

/-- The GUID literal appended to the key. -/
def acceptGuid : QString := Qt.ofString "258EAFA5-E914-47DA-95CA-C5AB0DC85B11"

/-- The function `QWsServer::computeAcceptV8`. -/
def computeAcceptV8 (key : QString) : QString :=
  let key := key ++ acceptGuid
  let hash := Qt.sha1 (Qt.toUtf8 key)
  Qt.fromAscii (Qt.toBase64 hash)

/-- An effect of the server that its environment observes. -/
inductive Effect where
  /-- The call `pendingConnections.enqueue(socket)`. -/
  | enqueue (socket : Int)
  /-- The signal `emit QWsServer::newConnection()`. -/
  | newConnection
  /-- The call `clientSocket->write(data)` on the socket with that descriptor. -/
  | write (socket : Int) (data : QByteArray)
  deriving DecidableEq, Repr

/-- The client socket a slot is called for: its descriptor and the bytes that
`readAll()` returns. -/
structure QTcpSocket where
  socketDescriptor : Int
  available : QByteArray
  deriving DecidableEq, Repr

/-- The members of `QWsServer` that the handshake and the queue use. A queued
socket is named by its descriptor; `maxPendingConnections` is the value of
`QTcpServer::maxPendingConnections()`; `effects` lists what the server has
done so far, oldest first. -/
structure QWsServer where
  resourceName : QString
  pendingConnections : List Int
  maxPendingConnections : Nat
  effects : List Effect
  deriving DecidableEq, Repr

namespace QWsServer

/-- The function `QWsServer::addPendingConnection`. -/
def addPendingConnection (self : QWsServer) (socket : Int) : QWsServer :=
  if self.pendingConnections.length < self.maxPendingConnections then
    { self with
      pendingConnections := self.pendingConnections ++ [socket]
      effects := self.effects ++ [Effect.enqueue socket] }
  else self

/-- The function `QWsServer::incomingConnection`: the new socket gets the
descriptor, is offered to the queue, and the signal is emitted. -/
def incomingConnection (self : QWsServer) (socketDescriptor : Int) : QWsServer :=
  let socket := socketDescriptor
  let self := addPendingConnection self socket
  { self with effects := self.effects ++ [Effect.newConnection] }

/-- The function `QWsServer::hasPendingConnections`. -/
def hasPendingConnections (self : QWsServer) : Bool :=
  if self.pendingConnections.length > 0 then true else false

/-- The function `QWsServer::nextPendingConnection`: `QQueue::dequeue` removes and
returns the head; on an empty queue the call is undefined, which is `none`. -/
def nextPendingConnection (self : QWsServer) : Option (Int × QWsServer) :=
  match self.pendingConnections with
  | [] => none
  | socket :: rest => some (socket, { self with pendingConnections := rest })

/-- The port part of the captured Host value: `sl[1]` of `split(':')` when
there is one, the empty string otherwise. -/
def hostPortOf (host : QString) : QString :=
  let sl := Qt.split 0x3A host
  if sl.length > 1 then sl.getD 1 [] else []

/-- The address part of the captured Host value: `sl[0]` of `split(':')`. -/
def hostAddressOf (host : QString) : QString :=
  (Qt.split 0x3A host).getD 0 []

/-- The answer text composed by `dataReceived`. -/
def answerFor (key : QString) : QString :=
  let accept := computeAcceptV8 key
  let answer := Qt.ofString "HTTP/1.1 101 Switching Protocols\r\n"
  let answer := answer ++ Qt.ofString "Upgrade: websocket\r\n"
  let answer := answer ++ Qt.ofString "Connection: Upgrade\r\n"
  let answer := answer ++ (Qt.ofString "Sec-WebSocket-Accept: " ++ accept ++ Qt.ofString "\r\n")
  answer ++ Qt.ofString "\r\n"

/-- The slot `QWsServer::dataReceived`. The parameter `cap pattern request` is the
text `regExp.cap(1)` holds after `regExp.setPattern(pattern)` and
`regExp.indexIn(request)` with minimal matching (empty when there is no match);
`sender` is the socket the signal came from, `none` when the sender is not a
socket. -/
def dataReceived (cap : QString → QString → QString) (self : QWsServer)
    (sender : Option QTcpSocket) : QWsServer :=
  match sender with
  | none => self
  | some clientSocket =>
    let request := Qt.fromAscii clientSocket.available
    -- Extract mandatory datas
    let self := { self with resourceName := cap regExpResourceNameStr request }
    let hostPort := hostPortOf (cap regExpHostStr request)
    let hostAddress := hostAddressOf (cap regExpHostStr request)
    let key := cap regExpKeyStr request
    let version := cap regExpVersionStr request
    -- Extract optional datas
    let origin := cap regExpOriginStr request
    let protocol := cap regExpProtocolStr request
    let extensions := cap regExpExtensionsStr request
    -- If the mandatory params are not setted, we abord the handshake
    if hostAddress = [] ∨ hostPort = [] ∨ self.resourceName = [] ∨ key = []
        ∨ version ≠ Qt.ofString "8" then
      self
    else
      let self := incomingConnection self clientSocket.socketDescriptor
      -- Compose answer
      let answer := answerFor key
      { self with
        effects := self.effects ++ [Effect.write clientSocket.socketDescriptor (Qt.toUtf8 answer)] }

/-- The data written to sockets, in order. -/
def written (effects : List Effect) : List QByteArray :=
  effects.filterMap (fun e => match e with
    | Effect.write _ data => some data
    | _ => none)

/-- The number of `newConnection` signals among the effects. -/
def notifications (effects : List Effect) : Nat :=
  effects.count Effect.newConnection

/-- A call on the pending-connection queue. -/
inductive QueueCall where
  | add (socket : Int)
  | next
  deriving DecidableEq, Repr

/-- One call on the queue; `none` when `nextPendingConnection` is called on an
empty queue. -/
def call (self : QWsServer) : QueueCall → Option QWsServer
  | QueueCall.add socket => some (addPendingConnection self socket)
  | QueueCall.next => (nextPendingConnection self).map Prod.snd

/-- A sequence of calls on the queue, in order. -/
def calls (self : QWsServer) : List QueueCall → Option QWsServer
  | [] => some self
  | c :: cs => (call self c).bind (fun next => calls next cs)

/-- A server with an empty queue of the given capacity. -/
def empty (capacity : Nat) : QWsServer :=
  { resourceName := [], pendingConnections := [], maxPendingConnections := capacity,
    effects := [] }

/-- The call `addPendingConnection` on each socket in order. -/
def addAll (self : QWsServer) (sockets : List Int) : QWsServer :=
  sockets.foldl addPendingConnection self

/-- The call `nextPendingConnection` made `n` times: the sockets returned, in
order, and the server afterwards. -/
def nextN (self : QWsServer) : Nat → Option (List Int × QWsServer)
  | 0 => some ([], self)
  | n + 1 =>
    match nextPendingConnection self with
    | none => none
    | some (socket, self1) =>
      match nextN self1 n with
      | none => none
      | some (sockets, self2) => some (socket :: sockets, self2)

/-! ## A sample handshake -/

/-- What follows the first occurrence of `pre` in `s`, when there is one. -/
def afterFirst (pre : QString) : QString → Option QString
  | [] => if pre = [] then some [] else none
  | c :: cs =>
    if pre.isPrefixOf (c :: cs) then some ((c :: cs).drop pre.length) else afterFirst pre cs

/-- What precedes the first occurrence of `post` in `s`, when there is one. -/
def beforeFirst (post : QString) : QString → Option QString
  | [] => if post = [] then some [] else none
  | c :: cs =>
    if post.isPrefixOf (c :: cs) then some [] else (beforeFirst post cs).map (fun r => c :: r)

/-- The text between the first `pre` and the next `post`, empty when either is
not found. -/
def between (pre post s : QString) : QString :=
  match afterFirst pre s with
  | none => []
  | some r => (beforeFirst post r).getD []

/-- The captures of the four mandatory patterns on a request whose header lines
are each a name, one blank, the value and CRLF: the value of the line, and the
empty string when the line is absent. Used for the sample requests below. -/
def lineCap (pattern request : QString) : QString :=
  if pattern = regExpResourceNameStr then
    between (Qt.ofString "GET ") (Qt.ofString " HTTP/1.1\r\n") request
  else if pattern = regExpHostStr then
    between (Qt.ofString "Host: ") (Qt.ofString "\r\n") request
  else if pattern = regExpKeyStr then
    between (Qt.ofString "Sec-WebSocket-Key: ") (Qt.ofString "\r\n") request
  else if pattern = regExpVersionStr then
    between (Qt.ofString "Sec-WebSocket-Version: ") (Qt.ofString "\r\n") request
  else []

/-- A client socket holding the sample request of the specification. -/
def sampleSocket : QTcpSocket :=
  { socketDescriptor := 5
    available := Qt.ofString
      "GET /chat HTTP/1.1\r\nHost: example.com:8080\r\nSec-WebSocket-Key: dGhlIHNhbXBsZSBub25jZQ==\r\nSec-WebSocket-Version: 8\r\n\r\n" }

/-- A client socket holding a request without a Sec-WebSocket-Key line. -/
def keylessSocket : QTcpSocket :=
  { socketDescriptor := 6
    available := Qt.ofString
      "GET /chat HTTP/1.1\r\nHost: example.com:8080\r\nSec-WebSocket-Version: 8\r\n\r\n" }

/-- The effects a call has added: those of `after` that `before` did not have. -/
def effectsOf (before after : QWsServer) : List Effect :=
  after.effects.drop before.effects.length

/-- Both effects happen, and the first occurrence of `a` comes before the first
occurrence of `b`. -/
def happensBefore (a b : Effect) (effects : List Effect) : Prop :=
  a ∈ effects ∧ b ∈ effects ∧ effects.indexOf a < effects.indexOf b

instance (a b : Effect) (effects : List Effect) : Decidable (happensBefore a b effects) := by
  unfold happensBefore
  infer_instance

/-- A server whose queue of capacity 1 already holds one socket. -/
def fullServer : QWsServer :=
  addPendingConnection (empty 1) 4

end QWsServer


/-! ## The steps of `decodeFrame` after the two header bytes -/

/-- The extended-length step of `decodeFrame`, on what follows the two header
bytes: the `PayloadLength` used and the bytes left in the socket. -/
def lengthStep (PayloadLen7 : Nat) (socket : QByteArray) : Nat × QByteArray :=
  if PayloadLen7 = 126 then
    let r := Qt.read 2 socket
    (Qt.toUShort r.1 % 256, r.2)
  else if PayloadLen7 = 127 then
    let r := Qt.read 8 socket
    (Qt.toULongLong r.1 % 256, r.2)
  else (PayloadLen7, socket)

/-- The masking-key and payload steps of `decodeFrame`, on what follows the
length: `ApplicationData` and the bytes left in the socket. -/
def payloadStep (Mask PayloadLength : Nat) (socket : QByteArray) : QByteArray × QByteArray :=
  let key : QByteArray × QByteArray :=
    if Mask ≠ 0 then Qt.read 4 socket else ([], socket)
  let data := Qt.read PayloadLength key.2
  (if Mask ≠ 0 then unmask PayloadLength key.1 data.1 else data.1, data.2)

/-! ## QRegExp on the patterns of the source -/

namespace Qt

/-- The function `QChar::isSpace()` on a Latin-1 code unit, the meaning of `\s`:
the characters 9 to 13, the blank and the no-break space. -/
def isSpaceChar (c : Nat) : Bool :=
  (0x09 ≤ c && c ≤ 0x0D) || c == 0x20 || c == 0xA0

/-- A one-character expression of `QRegExp`, of the kinds the source's patterns
use: a character that stands for itself, `.` (any character, line breaks
included), `\s` and `\d`. -/
inductive Atom where
  | char (c : Nat)
  | any
  | space
  | digit
  deriving DecidableEq, Repr

/-- The quantifier after an atom: none, `*`, `+` or `{n}`. -/
inductive Quantifier where
  | once
  | star
  | plus
  | times (n : Nat)
  deriving DecidableEq, Repr

/-- An atom with its quantifier. -/
structure Item where
  atom : Atom
  quantifier : Quantifier
  deriving DecidableEq, Repr

/-- A pattern with one capturing group: what precedes the parentheses, what is
inside them, what follows them. -/
structure Pattern where
  before : List Item
  group : List Item
  after : List Item
  deriving DecidableEq, Repr

/-- Whether the atom matches the character. -/
def Atom.accepts : Atom → Nat → Bool
  | Atom.char c, x => x == c
  | Atom.any, _ => true
  | Atom.space, x => isSpaceChar x
  | Atom.digit, x => isDigit x

/-- Whether a number of repetitions is allowed by the quantifier. -/
def Quantifier.allows : Quantifier → Nat → Bool
  | Quantifier.once, k => k == 1
  | Quantifier.star, _ => true
  | Quantifier.plus, k => 1 ≤ k
  | Quantifier.times n, k => k == n

/-- The text of an atom in a pattern. -/
def Atom.render : Atom → QString
  | Atom.char c => [c]
  | Atom.any => [0x2E]
  | Atom.space => [0x5C, 0x73]
  | Atom.digit => [0x5C, 0x64]

/-- The text of a quantifier in a pattern. -/
def Quantifier.render : Quantifier → QString
  | Quantifier.once => []
  | Quantifier.star => [0x2A]
  | Quantifier.plus => [0x2B]
  | Quantifier.times n => [0x7B] ++ number n ++ [0x7D]

/-- The text of a sequence of items in a pattern. -/
def renderItems (items : List Item) : QString :=
  items.flatMap (fun it => it.atom.render ++ it.quantifier.render)

/-- The text of a pattern: the string given to `QRegExp::setPattern`. -/
def Pattern.render (p : Pattern) : QString :=
  renderItems p.before ++ [0x28] ++ renderItems p.group ++ [0x29] ++ renderItems p.after

/-- The characters of a string, each standing for itself. -/
def literal (s : String) : List Item :=
  (ofString s).map (fun c => { atom := Atom.char c, quantifier := Quantifier.once })

/-- The numbers `k` such that the first `k` characters of `s` all match the atom. -/
def runLengths (a : Atom) : QString → List Nat
  | [] => [0]
  | c :: cs => if a.accepts c then 0 :: (runLengths a cs).map (fun k => k + 1) else [0]

/-- The lengths of the beginnings of `s` that the item matches. -/
def Item.lengths (it : Item) (s : QString) : List Nat :=
  (runLengths it.atom s).filter it.quantifier.allows

/-- The lengths of the beginnings of `s` that the items match one after the
other. -/
def matchLengths : List Item → QString → List Nat
  | [], _ => [0]
  | it :: rest, s =>
    (it.lengths s).flatMap (fun k => (matchLengths rest (s.drop k)).map (fun r => k + r))

/-- Every match of the pattern at the beginning of `s`: its length and the text
of the group. In the source's patterns what precedes and what follows the group
has a fixed length, so the group of a match is determined by its length. -/
def Pattern.matchesHere (p : Pattern) (s : QString) : List (Nat × QString) :=
  (matchLengths p.before s).flatMap (fun kb =>
    (matchLengths p.group (s.drop kb)).flatMap (fun kg =>
      (matchLengths p.after (s.drop (kb + kg))).map (fun ka =>
        (kb + kg + ka, (s.drop kb).take kg))))

/-- The shortest of the matches, which minimal matching (`setMinimal(true)`)
selects. -/
def shortest : List (Nat × QString) → Option (Nat × QString)
  | [] => none
  | m :: ms =>
    match shortest ms with
    | none => some m
    | some m1 => if m.1 ≤ m1.1 then some m else some m1

/-- The call `QRegExp::indexIn(s)` with minimal matching: the match at the first
position of `s` where the pattern matches, the shortest one there; its length
and the text of the group. -/
def Pattern.indexIn (p : Pattern) : QString → Option (Nat × QString)
  | [] => shortest (p.matchesHere [])
  | c :: cs =>
    match shortest (p.matchesHere (c :: cs)) with
    | some m => some m
    | none => Pattern.indexIn p cs

/-- The text `cap(1)` after `indexIn(s)`: the group of the match, empty when the
pattern matches nowhere. -/
def Pattern.cap1 (p : Pattern) (s : QString) : QString :=
  match p.indexIn s with
  | some m => m.2
  | none => []

end Qt

namespace QWsServer

/-- The pattern `GET\s(.*)\sHTTP/1.1\r\n`; its `.` between the two `1` is the
expression for any character. -/
def resourceNamePattern : Qt.Pattern :=
  { before := Qt.literal "GET" ++ [{ atom := Qt.Atom.space, quantifier := Qt.Quantifier.once }]
    group := [{ atom := Qt.Atom.any, quantifier := Qt.Quantifier.star }]
    after := [{ atom := Qt.Atom.space, quantifier := Qt.Quantifier.once }]
      ++ Qt.literal "HTTP/1" ++ [{ atom := Qt.Atom.any, quantifier := Qt.Quantifier.once }]
      ++ Qt.literal "1\r\n" }

/-- The pattern `Host:\s(.+:\d+)\r\n`. -/
def hostPattern : Qt.Pattern :=
  { before := Qt.literal "Host:" ++ [{ atom := Qt.Atom.space, quantifier := Qt.Quantifier.once }]
    group := [{ atom := Qt.Atom.any, quantifier := Qt.Quantifier.plus },
              { atom := Qt.Atom.char 0x3A, quantifier := Qt.Quantifier.once },
              { atom := Qt.Atom.digit, quantifier := Qt.Quantifier.plus }]
    after := Qt.literal "\r\n" }

/-- The pattern `Sec-WebSocket-Key:\s(.{24})\r\n`, written here without its
braces. -/
def keyPattern : Qt.Pattern :=
  { before := Qt.literal "Sec-WebSocket-Key:"
      ++ [{ atom := Qt.Atom.space, quantifier := Qt.Quantifier.once }]
    group := [{ atom := Qt.Atom.any, quantifier := Qt.Quantifier.times 24 }]
    after := Qt.literal "\r\n" }

/-- The pattern `Sec-WebSocket-Version:\s(\d)\r\n`. -/
def versionPattern : Qt.Pattern :=
  { before := Qt.literal "Sec-WebSocket-Version:"
      ++ [{ atom := Qt.Atom.space, quantifier := Qt.Quantifier.once }]
    group := [{ atom := Qt.Atom.digit, quantifier := Qt.Quantifier.once }]
    after := Qt.literal "\r\n" }

/-- The patterns of the three optional headers, `<name>:\s(.+)\r\n`. -/
def optionalPattern (name : String) : Qt.Pattern :=
  { before := Qt.literal name ++ [{ atom := Qt.Atom.space, quantifier := Qt.Quantifier.once }]
    group := [{ atom := Qt.Atom.any, quantifier := Qt.Quantifier.plus }]
    after := Qt.literal "\r\n" }

/-- The patterns of the source. -/
def patterns : List Qt.Pattern :=
  [resourceNamePattern, hostPattern, keyPattern, versionPattern,
   optionalPattern "Sec-WebSocket-Origin:", optionalPattern "Sec-WebSocket-Protocol:",
   optionalPattern "Sec-WebSocket-Extensions:"]

/-- The calls `regExp.setPattern(pattern)`, `regExp.indexIn(request)` and
`regExp.cap(1)` of `dataReceived`, with minimal matching, for the patterns of
the source: the pattern whose text is `pattern` is matched on the request. -/
def regExpCap (pattern request : QString) : QString :=
  match patterns.find? (fun p => p.render == pattern) with
  | some p => p.cap1 request
  | none => []

/-- A client socket holding a request whose Host line has no port, and whose
origin line ends with a port. -/
def portlessSocket : QTcpSocket :=
  { socketDescriptor := 7
    available := Qt.ofString
      "GET /chat HTTP/1.1\r\nHost: example.com\r\nSec-WebSocket-Origin: http://example.com:8080\r\nSec-WebSocket-Key: dGhlIHNhbXBsZSBub25jZQ==\r\nSec-WebSocket-Version: 8\r\n\r\n" }

/-- A client socket holding a request whose Host line has no port, and no other
line ending with a colon and digits. -/
def plainPortlessSocket : QTcpSocket :=
  { socketDescriptor := 8
    available := Qt.ofString
      "GET /chat HTTP/1.1\r\nHost: example.com\r\nSec-WebSocket-Key: dGhlIHNhbXBsZSBub25jZQ==\r\nSec-WebSocket-Version: 8\r\n\r\n" }

end QWsServer

/-! ## The wire layout of the specification -/

/-- The length field of a frame as the specification words it: the literal 7-bit
value below 126, the byte 126 and a 16-bit big-endian extension from 126 to
65535, the byte 127 and a 64-bit big-endian extension above. -/
def wireLengthField (L : Nat) : QByteArray :=
  if L < 126 then [L]
  else if L ≤ 0xFFFF then 126 :: Qt.bigEndian 2 L
  else 127 :: Qt.bigEndian 8 L

/-- The header of a frame read by the wire layout of the specification: the
payload length it declares and the number of bytes the header takes (first
byte, length field, masking key when the Mask bit is set); `none` when the
bytes end inside the header. -/
def wireHeader (frame : QByteArray) : Option (Nat × Nat) :=
  match frame with
  | _ :: b1 :: rest =>
    let keyBytes := if b1 >>> 7 ≠ 0 then 4 else 0
    let len7 := b1 &&& 0x7F
    if len7 = 126 then
      if 2 + keyBytes ≤ rest.length then some (Qt.ofBigEndian (rest.take 2), 4 + keyBytes)
      else none
    else if len7 = 127 then
      if 8 + keyBytes ≤ rest.length then some (Qt.ofBigEndian (rest.take 8), 10 + keyBytes)
      else none
    else if keyBytes ≤ rest.length then some (len7, 2 + keyBytes)
    else none
  | _ => none

/-! ## Properties of the frame codec -/

theorem unmask_succ (n : Nat) (K AD : QByteArray) :
    unmask (n + 1) K AD = unmaskStep K (unmask n K AD) n := by
  simp [unmask, List.range_succ, List.foldl_append]

theorem byteAt_append_length (M D : QByteArray) :
    Qt.byteAt (M ++ D) M.length = Qt.byteAt D 0 := by
  unfold Qt.byteAt
  rw [List.getD_append_right _ _ _ _ (Nat.le_refl _)]
  simp

theorem unmask_eq (n : Nat) (K AD : QByteArray) :
    unmask n K AD = (List.range n).map (unmaskedByte K AD) ++ AD.drop n := by
  induction n with
  | zero => simp [unmask]
  | succ n ih =>
    rw [unmask_succ, ih]
    have hlen : ((List.range n).map (unmaskedByte K AD)).length = n := by simp
    generalize hM : (List.range n).map (unmaskedByte K AD) = M at hlen ⊢
    have hr : (List.range (n + 1)).map (unmaskedByte K AD) = M ++ [unmaskedByte K AD n] := by
      simp [List.range_succ, hM]
    rw [hr]
    by_cases h : n < AD.length
    · obtain ⟨a, D, hd, hb, hd'⟩ :
          ∃ a D, AD.drop n = a :: D ∧ Qt.byteAt AD n = a ∧ AD.drop (n + 1) = D :=
        ⟨AD[n], AD.drop (n + 1), List.drop_eq_getElem_cons h, by
          simp [Qt.byteAt, List.getD_eq_getElem?_getD, List.getElem?_eq_getElem h], rfl⟩
      rw [hd, hd']
      have h1 : Qt.byteAt (M ++ a :: D) n = a := by
        have := byteAt_append_length M (a :: D)
        rw [hlen] at this
        rw [this]; rfl
      unfold unmaskStep
      rw [h1]
      unfold Qt.setByte
      rw [if_pos (by simp; omega)]
      rw [List.set_append_right _ _ (by omega)]
      simp [hlen, unmaskedByte, hb]
    · have hd : AD.drop n = [] := List.drop_eq_nil_of_le (by omega)
      have hd' : AD.drop (n + 1) = [] := List.drop_eq_nil_of_le (by omega)
      have hb : Qt.byteAt AD n = 0 := by
        simp [Qt.byteAt, List.getD_eq_getElem?_getD, List.getElem?_eq_none (Nat.le_of_not_lt h)]
      rw [hd, hd', List.append_nil]
      have h1 : Qt.byteAt M n = 0 := by
        unfold Qt.byteAt
        exact List.getD_eq_default _ _ (by omega)
      unfold unmaskStep
      rw [h1]
      unfold Qt.setByte
      simp [hlen, unmaskedByte, hb]


theorem xor_xor_byte (a k : Nat) (ha : a < 256) (hk : k < 256) :
    ((a ^^^ k) % 256 ^^^ k) % 256 = a := by
  have h : a ^^^ k < 256 :=
    Nat.xor_lt_two_pow (n := 8) (by simpa using ha) (by simpa using hk)
  have h1 : (a ^^^ k) % 256 = a ^^^ k := Nat.mod_eq_of_lt h
  rw [h1, Nat.xor_assoc, Nat.xor_self, Nat.xor_zero, Nat.mod_eq_of_lt ha]

theorem byteAt_lt (ba : QByteArray) (h : isBytes ba) (i : Nat) : Qt.byteAt ba i < 256 := by
  unfold Qt.byteAt
  by_cases hi : i < ba.length
  · rw [List.getD_eq_getElem _ _ hi]
    exact h _ (List.getElem_mem hi)
  · rw [List.getD_eq_default _ _ (by omega)]
    decide

theorem unmask_length_eq (K P : QByteArray) :
    unmask P.length K P = (List.range P.length).map (unmaskedByte K P) := by
  rw [unmask_eq, List.drop_length, List.append_nil]

theorem header_bits : ∀ L, L < 126 →
    ((128 + L) % 256) >>> 7 = 1 ∧ ((128 + L) % 256) &&& 0x7F = L ∧
    (L % 256) >>> 7 = 0 ∧ (L % 256) &&& 0x7F = L := by
  decide


theorem unmask_eq_xorWithKey (K P : QByteArray) (hP : isBytes P) (hK : isBytes K) :
    unmask P.length K P = xorWithKey K P := by
  rw [unmask_length_eq]
  unfold xorWithKey
  apply List.map_congr_left
  intro i _
  have h : Qt.byteAt P i ^^^ Qt.byteAt K (i % 4) < 256 :=
    Nat.xor_lt_two_pow (n := 8) (by simpa using byteAt_lt P hP i)
      (by simpa using byteAt_lt K hK (i % 4))
  unfold unmaskedByte
  rw [Nat.mod_eq_of_lt h]
  rfl

theorem fromAscii_of_nonzero (ba : QByteArray) (h : ∀ b ∈ ba, b ≠ 0) : Qt.fromAscii ba = ba := by
  unfold Qt.fromAscii
  rw [List.takeWhile_eq_self_iff]
  intro b hb
  simpa using h b hb

/-- C9: the masking transform of `decodeFrame` (byte `i` replaced by byte `i` XOR
`K[i mod 4]`) applied twice with the same key gives the payload back. -/
theorem unmask_unmask (P K : QByteArray) (hP : isBytes P) (hK : isBytes K) :
    unmask P.length K (unmask P.length K P) = P := by
  rw [unmask_length_eq K P]
  generalize hQ : (List.range P.length).map (unmaskedByte K P) = Q
  have hlen : Q.length = P.length := by rw [← hQ]; simp
  rw [← hlen, unmask_length_eq K Q, hlen]
  apply List.ext_getElem
  · simp
  · intro i h1 h2
    have hi : i < Q.length := by omega
    have hq : Qt.byteAt Q i = unmaskedByte K P i := by
      unfold Qt.byteAt
      rw [List.getD_eq_getElem _ _ hi]
      subst hQ
      simp
    have hp : Qt.byteAt P i = P[i] := by
      unfold Qt.byteAt
      rw [List.getD_eq_getElem _ _ h2]
    simp only [List.getElem_map, List.getElem_range]
    show (Qt.byteAt Q i ^^^ Qt.byteAt K (i % 4)) % 256 = P[i]
    rw [hq]
    unfold unmaskedByte
    rw [xor_xor_byte _ _ (byteAt_lt P hP i) (byteAt_lt K hK (i % 4)), hp]

theorem unmask_unmask_witness :
    isBytes [72, 101, 108, 108, 111] ∧ isBytes [1, 2, 3, 4]
      ∧ unmask 5 [1, 2, 3, 4] [72, 101, 108, 108, 111] = [73, 103, 111, 104, 110]
      ∧ unmask 5 [1, 2, 3, 4] (unmask 5 [1, 2, 3, 4] [72, 101, 108, 108, 111])
        = [72, 101, 108, 108, 111] :=
  ⟨by decide, by decide, by decide,
    unmask_unmask [72, 101, 108, 108, 111] [1, 2, 3, 4] (by decide) (by decide)⟩


theorem decodeFrame_unmasked (b0 : Nat) (payload rest : QByteArray)
    (hL : payload.length ≤ 125) :
    decodeFrame (b0 :: payload.length :: (payload ++ rest)) = (Qt.fromAscii payload, rest) := by
  obtain ⟨-, -, h3, h4⟩ := header_bits payload.length (by omega)
  have h126 : payload.length ≠ 126 := by omega
  have h127 : payload.length ≠ 127 := by omega
  simp [decodeFrame, decodeFrameVars, Qt.read, Qt.byteAt, h3, h4, h126, h127]

theorem decodeFrame_masked (b0 : Nat) (key payload rest : QByteArray)
    (hL : payload.length ≤ 125) (hkey : key.length = 4)
    (hk : isBytes key) (hp : isBytes payload) :
    decodeFrame (b0 :: (0x80 + payload.length) :: (key ++ (payload ++ rest)))
      = (Qt.fromAscii (xorWithKey key payload), rest) := by
  obtain ⟨h1, h2, -, -⟩ := header_bits payload.length (by omega)
  have h126 : payload.length ≠ 126 := by omega
  have h127 : payload.length ≠ 127 := by omega
  have hu := unmask_eq_xorWithKey key payload hp hk
  have ht : List.take 4 (key ++ (payload ++ rest)) = key := by
    rw [← hkey, List.take_left]
  have hd : List.drop 4 (key ++ (payload ++ rest)) = payload ++ rest := by
    rw [← hkey, List.drop_left]
  have hd2 : List.drop (4 + payload.length) (key ++ (payload ++ rest)) = rest := by
    rw [← hkey, ← List.length_append, ← List.append_assoc, List.drop_left]
  simp [decodeFrame, decodeFrameVars, Qt.read, Qt.byteAt, h1, h2, h126, h127, ht, hd, hd2, hu]


theorem toAscii_of_bytes (message : QString) (h : isBytes message) :
    Qt.toAscii message = message := by
  unfold Qt.toAscii
  conv => rhs; rw [← List.map_id message]
  apply List.map_congr_left
  intro c hc
  simp [h c hc]

theorem composeFrame_of_short (message : QString) (maxFrameBytes : Int)
    (h : message.length < 126) :
    composeFrame message maxFrameBytes = 0x81 :: message.length :: Qt.toAscii message := by
  unfold composeFrame
  simp only
  rw [if_pos h, if_pos h, Nat.mod_eq_of_lt (by omega)]
  simp

theorem decodeFrame_composeFrame_of_short (message : QString) (maxFrameBytes : Int)
    (hlen : message.length < 126) (hbytes : isBytes message) (hnz : ∀ c ∈ message, c ≠ 0) :
    decodeFrame (composeFrame message maxFrameBytes) = (message, []) := by
  rw [composeFrame_of_short message maxFrameBytes hlen, toAscii_of_bytes message hbytes]
  have h := decodeFrame_unmasked 0x81 message [] (by omega)
  rw [List.append_nil] at h
  rw [h, fromAscii_of_nonzero message hnz]

theorem composeFrame_of_long (message : QString) (maxFrameBytes : Int)
    (h : 0xFFFF < message.length) : composeFrame message maxFrameBytes = [] := by
  unfold composeFrame
  simp only
  rw [if_neg (by omega), if_neg (by omega), if_neg (by omega)]

/-- C1 (the code at the failing inputs): a message of 126 letters `a` is framed
as a zero byte, the text `126` and the letters; `decodeFrame` reads the digit
`1` as a 7-bit length of 49 and returns 49 characters, `26` and 47 letters.
A message of 65536 letters is framed as the empty byte array, which decodes
to the empty string. Neither result is the message. -/
theorem composeFrame_decodeFrame_fails (maxFrameBytes : Int) :
    composeFrame (List.replicate 126 0x61) maxFrameBytes
        = 0x00 :: 0x31 :: 0x32 :: 0x36 :: List.replicate 126 0x61
      ∧ decodeFrame (composeFrame (List.replicate 126 0x61) maxFrameBytes)
        = (0x32 :: 0x36 :: List.replicate 47 0x61, List.replicate 79 0x61)
      ∧ (decodeFrame (composeFrame (List.replicate 126 0x61) maxFrameBytes)).1
        ≠ List.replicate 126 0x61
      ∧ composeFrame (List.replicate 65536 0x61) maxFrameBytes = []
      ∧ (decodeFrame (composeFrame (List.replicate 65536 0x61) maxFrameBytes)).1 = []
      ∧ (decodeFrame (composeFrame (List.replicate 65536 0x61) maxFrameBytes)).1
        ≠ List.replicate 65536 0x61 := by
  have h0 : composeFrame (List.replicate 126 0x61) maxFrameBytes
      = composeFrame (List.replicate 126 0x61) 0 := rfl
  have h1 : composeFrame (List.replicate 65536 0x61) maxFrameBytes = [] :=
    composeFrame_of_long _ _ (by rw [List.length_replicate]; decide)
  have h2 : (decodeFrame []).1 = [] := by decide
  rw [h0, h1, h2]
  refine ⟨by decide, by decide, by decide, rfl, rfl, ?_⟩
  intro h
  have hlen := congrArg List.length h
  rw [List.length_replicate, List.length_nil] at hlen
  exact absurd hlen (by decide)

/-- C8 (counterexample): the frame `0x81 0x02 0x00 0x41` has a 7-bit length of 2 and
carries its 2 payload bytes, and `0x81 0x82 01 02 03 04 01 0x41` is a masked
frame of 2 payload bytes whose first byte unmasks to 0; in both cases
`decodeFrame` returns the empty string, not 2 payload bytes. -/
theorem decodeFrame_zero_byte_cuts :
    decodeFrame [0x81, 0x02, 0x00, 0x41] = ([], [])
      ∧ (decodeFrame [0x81, 0x02, 0x00, 0x41]).1 ≠ [0x00, 0x41]
      ∧ (decodeFrame [0x81, 0x02, 0x00, 0x41]).1.length ≠ 2
      ∧ (decodeFrameVars [0x81, 0x02, 0x00, 0x41]).ApplicationData = [0x00, 0x41]
      ∧ decodeFrame [0x81, 0x82, 0x01, 0x02, 0x03, 0x04, 0x01, 0x41] = ([], [])
      ∧ (decodeFrameVars [0x81, 0x82, 0x01, 0x02, 0x03, 0x04, 0x01, 0x41]).ApplicationData
        = [0x00, 0x43] := by
  decide

/-- C8 (amended): a source that starts with a frame whose 7-bit length field is
`L ≤ 125` (the second byte is `L`, plus 0x80 when the Mask bit is set), followed
by the 4 key bytes when masked and by the `L` payload bytes, none of which
decodes to a zero byte: `decodeFrame` returns exactly the `L` payload bytes, the
wire bytes themselves when the Mask bit is clear and the wire bytes XOR
`MaskingKey[i mod 4]` when it is set, and leaves in the source exactly what
follows the `2 + (4 if masked) + L` bytes of the frame. -/
theorem decodeFrame_short_frame (b0 : Nat) (mask : Bool) (key payload rest : QByteArray)
    (hL : payload.length ≤ 125) (hkey : key.length = 4)
    (hk : isBytes key) (hp : isBytes payload)
    (hnz : ∀ b ∈ (if mask then xorWithKey key payload else payload), b ≠ 0) :
    decodeFrame (b0 :: ((if mask then 0x80 else 0) + payload.length)
        :: ((if mask then key else []) ++ (payload ++ rest)))
      = (if mask then xorWithKey key payload else payload, rest)
    ∧ (decodeFrame (b0 :: ((if mask then 0x80 else 0) + payload.length)
        :: ((if mask then key else []) ++ (payload ++ rest)))).1.length = payload.length := by
  cases mask with
  | false =>
    have h := decodeFrame_unmasked b0 payload rest hL
    simp only [Bool.false_eq_true, if_false, Nat.zero_add, List.nil_append] at hnz ⊢
    rw [h, fromAscii_of_nonzero payload hnz]
    exact ⟨rfl, rfl⟩
  | true =>
    have h := decodeFrame_masked b0 key payload rest hL hkey hk hp
    simp only [if_true] at hnz ⊢
    rw [h, fromAscii_of_nonzero _ hnz]
    exact ⟨rfl, by simp [xorWithKey]⟩

theorem decodeFrame_short_frame_witness :
    isBytes [1, 2, 3, 4] ∧ isBytes [0x48, 0x65, 0x6C, 0x6C, 0x6F]
      ∧ (∀ b ∈ xorWithKey [1, 2, 3, 4] [0x48, 0x65, 0x6C, 0x6C, 0x6F], b ≠ 0)
      ∧ decodeFrame [0x81, 0x05, 0x48, 0x65, 0x6C, 0x6C, 0x6F]
        = ([0x48, 0x65, 0x6C, 0x6C, 0x6F], [])
      ∧ decodeFrame [0x81, 0x85, 1, 2, 3, 4, 0x48, 0x65, 0x6C, 0x6C, 0x6F, 0x81]
        = ([0x49, 0x67, 0x6F, 0x68, 0x6E], [0x81]) :=
  ⟨by decide, by decide, by decide,
   (decodeFrame_short_frame 0x81 false [0, 0, 0, 0] [0x48, 0x65, 0x6C, 0x6C, 0x6F] []
      (by decide) (by decide) (by decide) (by decide) (by decide)).1,
   (decodeFrame_short_frame 0x81 true [1, 2, 3, 4] [0x48, 0x65, 0x6C, 0x6C, 0x6F] [0x81]
      (by decide) (by decide) (by decide) (by decide) (by decide)).1⟩

/-- C10 (the code at the failing inputs): after a 7-bit field of 126 the two
bytes `00 03` are the big-endian value 3, but `decodeFrame` converts them as
decimal text, gets 0 and reads no payload; the two bytes `0x30 0x33` are the
big-endian value 12339 and are read as the text `03`, a length of 3. After a
7-bit field of 127 the eight bytes `00 .. 00 03` also give a length of 0, and
the eight digits `00000300` give 300 reduced to 8 bits, 44. -/
theorem decodeFrame_extended_length_as_text :
    Qt.ofBigEndian [0x00, 0x03] = 3
      ∧ (decodeFrameVars [0x81, 0x7E, 0x00, 0x03, 0x61, 0x62, 0x63]).PayloadLength = 0
      ∧ decodeFrame [0x81, 0x7E, 0x00, 0x03, 0x61, 0x62, 0x63] = ([], [0x61, 0x62, 0x63])
      ∧ Qt.ofBigEndian [0x30, 0x33] = 12339
      ∧ (decodeFrameVars [0x81, 0x7E, 0x30, 0x33, 0x61, 0x62, 0x63]).PayloadLength = 3
      ∧ Qt.ofBigEndian [0, 0, 0, 0, 0, 0, 0, 3] = 3
      ∧ (decodeFrameVars [0x81, 0x7F, 0, 0, 0, 0, 0, 0, 0, 3, 0x61, 0x62, 0x63]).PayloadLength = 0
      ∧ decodeFrame [0x81, 0x7F, 0, 0, 0, 0, 0, 0, 0, 3, 0x61, 0x62, 0x63]
        = ([], [0x61, 0x62, 0x63])
      ∧ (decodeFrameVars
          (0x81 :: 0x7F :: 0x30 :: 0x30 :: 0x30 :: 0x30 :: 0x30 :: 0x33 :: 0x30 :: 0x30
            :: List.replicate 300 0x61)).PayloadLength = 44 := by
  decide


/-! ## Properties of the pending-connection queue -/

namespace QWsServer

theorem addPendingConnection_max (self : QWsServer) (socket : Int) :
    (addPendingConnection self socket).maxPendingConnections = self.maxPendingConnections := by
  unfold addPendingConnection
  split <;> rfl

theorem addPendingConnection_length_le (self : QWsServer) (socket : Int)
    (h : self.pendingConnections.length ≤ self.maxPendingConnections) :
    (addPendingConnection self socket).pendingConnections.length
      ≤ self.maxPendingConnections := by
  unfold addPendingConnection
  split
  · simp only [List.length_append, List.length_singleton]; omega
  · exact h

theorem addPendingConnection_full (self : QWsServer) (socket : Int)
    (h : self.maxPendingConnections ≤ self.pendingConnections.length) :
    addPendingConnection self socket = self := by
  unfold addPendingConnection
  rw [if_neg (by omega)]

theorem addPendingConnection_room (self : QWsServer) (socket : Int)
    (h : self.pendingConnections.length < self.maxPendingConnections) :
    (addPendingConnection self socket).pendingConnections
      = self.pendingConnections ++ [socket] := by
  unfold addPendingConnection
  rw [if_pos h]

theorem call_bounded (self next : QWsServer) (c : QueueCall)
    (h : self.pendingConnections.length ≤ self.maxPendingConnections)
    (hc : call self c = some next) :
    next.maxPendingConnections = self.maxPendingConnections
      ∧ next.pendingConnections.length ≤ next.maxPendingConnections := by
  cases c with
  | add socket =>
    simp only [call, Option.some.injEq] at hc
    subst hc
    rw [addPendingConnection_max]
    exact ⟨rfl, addPendingConnection_length_le self socket h⟩
  | next =>
    unfold call nextPendingConnection at hc
    cases hq : self.pendingConnections with
    | nil => simp [hq] at hc
    | cons a rest =>
      simp only [hq, Option.map, Option.some.injEq] at hc
      subst hc
      rw [hq] at h
      simp only [List.length_cons] at h
      exact ⟨rfl, by simp only; omega⟩

theorem calls_bounded (cs : List QueueCall) : ∀ (self last : QWsServer),
    self.pendingConnections.length ≤ self.maxPendingConnections →
    calls self cs = some last →
    last.maxPendingConnections = self.maxPendingConnections
      ∧ last.pendingConnections.length ≤ last.maxPendingConnections := by
  induction cs with
  | nil =>
    intro self last h hc
    simp only [calls, Option.some.injEq] at hc
    subst hc
    exact ⟨rfl, h⟩
  | cons c cs ih =>
    intro self last h hc
    unfold calls at hc
    cases hcall : call self c with
    | none => simp [hcall] at hc
    | some next =>
      rw [hcall] at hc
      simp only [Option.some_bind] at hc
      obtain ⟨hm, hl⟩ := call_bounded self next c h hcall
      obtain ⟨hm2, hl2⟩ := ih next last hl hc
      exact ⟨hm2.trans hm, hl2⟩

/-- C6: for a fixed capacity, after any sequence of `addPendingConnection` and
`nextPendingConnection` calls that starts from an empty queue the queue holds
at most `capacity` sockets (and the capacity is unchanged); and an
`addPendingConnection` on a queue whose size equals the capacity changes
nothing. -/
theorem pendingConnections_bounded (capacity : Nat) (cs : List QueueCall)
    (last full : QWsServer) (socket : Int)
    (hcalls : calls (empty capacity) cs = some last)
    (hfull : full.pendingConnections.length = full.maxPendingConnections) :
    last.pendingConnections.length ≤ capacity
      ∧ last.maxPendingConnections = capacity
      ∧ addPendingConnection full socket = full := by
  obtain ⟨hm, hl⟩ := calls_bounded cs (empty capacity) last (Nat.zero_le _) hcalls
  have hcap : last.maxPendingConnections = capacity := hm
  exact ⟨hcap ▸ hl, hcap, addPendingConnection_full full socket (by omega)⟩

theorem pendingConnections_bounded_witness :
    calls (empty 2) [QueueCall.add 7, QueueCall.add 8, QueueCall.add 9, QueueCall.next,
        QueueCall.add 10]
        = some { resourceName := [], pendingConnections := [8, 10], maxPendingConnections := 2,
                 effects := [Effect.enqueue 7, Effect.enqueue 8, Effect.enqueue 10] }
      ∧ (addAll (empty 2) [7, 8]).pendingConnections.length
          = (addAll (empty 2) [7, 8]).maxPendingConnections
      ∧ ([8, 10] : List Int).length ≤ 2
      ∧ addPendingConnection (addAll (empty 2) [7, 8]) 9 = addAll (empty 2) [7, 8] :=
  ⟨by decide, by decide,
    (pendingConnections_bounded 2
      [QueueCall.add 7, QueueCall.add 8, QueueCall.add 9, QueueCall.next, QueueCall.add 10]
      { resourceName := [], pendingConnections := [8, 10], maxPendingConnections := 2,
        effects := [Effect.enqueue 7, Effect.enqueue 8, Effect.enqueue 10] }
      (addAll (empty 2) [7, 8]) 9 (by decide) (by decide)).1,
    (pendingConnections_bounded 2
      [QueueCall.add 7, QueueCall.add 8, QueueCall.add 9, QueueCall.next, QueueCall.add 10]
      { resourceName := [], pendingConnections := [8, 10], maxPendingConnections := 2,
        effects := [Effect.enqueue 7, Effect.enqueue 8, Effect.enqueue 10] }
      (addAll (empty 2) [7, 8]) 9 (by decide) (by decide)).2.2⟩

theorem addAll_pending (sockets : List Int) : ∀ (self : QWsServer),
    self.pendingConnections.length + sockets.length ≤ self.maxPendingConnections →
    (addAll self sockets).pendingConnections = self.pendingConnections ++ sockets := by
  induction sockets with
  | nil => intro self _; simp [addAll]
  | cons s rest ih =>
    intro self h
    simp only [List.length_cons] at h
    have hroom := addPendingConnection_room self s (by omega)
    have hstep : addAll self (s :: rest) = addAll (addPendingConnection self s) rest := rfl
    rw [hstep, ih (addPendingConnection self s) (by
      rw [hroom, addPendingConnection_max]
      simp only [List.length_append, List.length_singleton]; omega), hroom]
    simp

theorem nextN_all (sockets : List Int) : ∀ (self : QWsServer),
    self.pendingConnections = sockets →
    nextN self sockets.length = some (sockets, { self with pendingConnections := [] }) := by
  induction sockets with
  | nil =>
    intro self h
    cases self
    simp only at h
    subst h
    rfl
  | cons s rest ih =>
    intro self h
    simp only [List.length_cons, nextN, nextPendingConnection, h]
    rw [ih { self with pendingConnections := rest } rfl]

/-- C7: with `N ≤ capacity` handles, `addPendingConnection` on each handle in order
on an empty queue and then `nextPendingConnection` called `N` times returns the
same handles in the same order and leaves the queue empty, and
`hasPendingConnections` is then false. -/
theorem pendingConnections_fifo (self : QWsServer) (sockets : List Int)
    (hempty : self.pendingConnections = [])
    (hN : sockets.length ≤ self.maxPendingConnections) :
    nextN (addAll self sockets) sockets.length
        = some (sockets, { addAll self sockets with pendingConnections := [] })
      ∧ hasPendingConnections { addAll self sockets with pendingConnections := [] } = false := by
  have hp : (addAll self sockets).pendingConnections = sockets := by
    rw [addAll_pending sockets self (by rw [hempty]; simpa using hN), hempty, List.nil_append]
  exact ⟨nextN_all sockets (addAll self sockets) hp, rfl⟩

theorem pendingConnections_fifo_witness :
    (empty 3).pendingConnections = [] ∧ ([7, 8, 9] : List Int).length ≤ (empty 3).maxPendingConnections
      ∧ nextN (addAll (empty 3) [7, 8, 9]) 3
        = some ([7, 8, 9], { addAll (empty 3) [7, 8, 9] with pendingConnections := [] })
      ∧ hasPendingConnections { addAll (empty 3) [7, 8, 9] with pendingConnections := [] }
        = false :=
  ⟨by decide, by decide, pendingConnections_fifo (empty 3) [7, 8, 9] (by decide) (by decide)⟩

end QWsServer


/-! ## Properties of the handshake -/

theorem base64Char_range (v : Nat) : 0x2B ≤ Qt.base64Char v ∧ Qt.base64Char v ≤ 0x7A := by
  unfold Qt.base64Char
  split
  · omega
  · split
    · omega
    · split
      · omega
      · split <;> omega

theorem toBase64_range (ba : QByteArray) : ∀ b ∈ Qt.toBase64 ba, 0x2B ≤ b ∧ b ≤ 0x7A := by
  induction ba using Qt.toBase64.induct with
  | case1 => simp [Qt.toBase64]
  | case2 x =>
    intro b hb
    simp only [Qt.toBase64, List.mem_cons, List.mem_singleton, List.not_mem_nil, or_false] at hb
    rcases hb with h | h | h | h <;> subst h <;>
      first | exact base64Char_range _ | decide
  | case3 x y =>
    intro b hb
    simp only [Qt.toBase64, List.mem_cons, List.mem_singleton, List.not_mem_nil, or_false] at hb
    rcases hb with h | h | h | h <;> subst h <;>
      first | exact base64Char_range _ | decide
  | case4 x y z rest ih =>
    intro b hb
    simp only [Qt.toBase64, List.mem_cons] at hb
    rcases hb with h | h | h | h | h
    · subst h; exact base64Char_range _
    · subst h; exact base64Char_range _
    · subst h; exact base64Char_range _
    · subst h; exact base64Char_range _
    · exact ih b h

theorem toUtf8_append (s t : QString) : Qt.toUtf8 (s ++ t) = Qt.toUtf8 s ++ Qt.toUtf8 t := by
  simp [Qt.toUtf8, List.flatMap_append]

theorem toUtf8_of_ascii (s : QString) (h : ∀ c ∈ s, c < 0x80) : Qt.toUtf8 s = s := by
  induction s with
  | nil => rfl
  | cons c rest ih =>
    have hc : c < 0x80 := h c (List.mem_cons_self _ _)
    have hr : Qt.toUtf8 rest = rest := ih (fun d hd => h d (List.mem_cons_of_mem _ hd))
    have hcons : Qt.toUtf8 (c :: rest) = Qt.toUtf8 [c] ++ Qt.toUtf8 rest :=
      toUtf8_append [c] rest
    rw [hcons, hr]
    simp [Qt.toUtf8, hc]

theorem computeAcceptV8_eq_base64 (key : QString) :
    computeAcceptV8 key = Qt.toBase64 (Qt.sha1 (Qt.toUtf8 key ++ acceptGuid)) := by
  unfold computeAcceptV8
  simp only
  rw [toUtf8_append, toUtf8_of_ascii acceptGuid (by decide)]
  exact fromAscii_of_nonzero _ (fun b hb => by
    have := (toBase64_range _ b hb).1
    omega)

theorem computeAcceptV8_ascii (key : QString) : ∀ c ∈ computeAcceptV8 key, c < 0x80 := by
  rw [computeAcceptV8_eq_base64]
  intro c hc
  have := (toBase64_range _ c hc).2
  omega

/-- C2: the accept token is the base64 text of the SHA-1 digest of the UTF-8
bytes of the key followed by the GUID literal, whatever the key, and for the
key `dGhlIHNhbXBsZSBub25jZQ==` it is `s3pPLMBiTxaQ9kYGzzhZRbK+xOo=`. -/
theorem computeAcceptV8_spec :
    (∀ key : QString, computeAcceptV8 key
        = Qt.toBase64 (Qt.sha1
            (Qt.toUtf8 key ++ Qt.ofString "258EAFA5-E914-47DA-95CA-C5AB0DC85B11")))
      ∧ computeAcceptV8 (Qt.ofString "dGhlIHNhbXBsZSBub25jZQ==")
        = Qt.ofString "s3pPLMBiTxaQ9kYGzzhZRbK+xOo=" :=
  ⟨computeAcceptV8_eq_base64, by decide⟩


namespace QWsServer

theorem splitAux_of_no_sep (sep : Nat) (s : QString) : ∀ cur : QString,
    sep ∉ s → Qt.splitAux sep s cur = [cur.reverse ++ s] := by
  induction s with
  | nil => intro cur _; simp [Qt.splitAux]
  | cons c rest ih =>
    intro cur h
    have hc : c ≠ sep := fun e => h (e ▸ List.mem_cons_self _ _)
    have hr : sep ∉ rest := fun m => h (List.mem_cons_of_mem _ m)
    simp [Qt.splitAux, hc, ih (c :: cur) hr]

theorem hostPortOf_of_no_colon (host : QString) (h : 0x3A ∉ host) : hostPortOf host = [] := by
  unfold hostPortOf Qt.split
  rw [splitAux_of_no_sep 0x3A host [] h]
  rfl

theorem dataReceived_of_rejected (cap : QString → QString → QString) (self : QWsServer)
    (clientSocket : QTcpSocket)
    (h : hostAddressOf (cap regExpHostStr (Qt.fromAscii clientSocket.available)) = []
      ∨ hostPortOf (cap regExpHostStr (Qt.fromAscii clientSocket.available)) = []
      ∨ cap regExpResourceNameStr (Qt.fromAscii clientSocket.available) = []
      ∨ cap regExpKeyStr (Qt.fromAscii clientSocket.available) = []
      ∨ cap regExpVersionStr (Qt.fromAscii clientSocket.available) ≠ Qt.ofString "8") :
    dataReceived cap self (some clientSocket)
      = { self with
          resourceName := cap regExpResourceNameStr (Qt.fromAscii clientSocket.available) } := by
  unfold dataReceived
  simp only
  rw [if_pos h]

theorem dataReceived_of_accepted (cap : QString → QString → QString) (self : QWsServer)
    (clientSocket : QTcpSocket)
    (hAddress : hostAddressOf (cap regExpHostStr (Qt.fromAscii clientSocket.available)) ≠ [])
    (hPort : hostPortOf (cap regExpHostStr (Qt.fromAscii clientSocket.available)) ≠ [])
    (hResource : cap regExpResourceNameStr (Qt.fromAscii clientSocket.available) ≠ [])
    (hKey : cap regExpKeyStr (Qt.fromAscii clientSocket.available) ≠ [])
    (hVersion : cap regExpVersionStr (Qt.fromAscii clientSocket.available) = Qt.ofString "8") :
    (dataReceived cap self (some clientSocket)).effects
      = (incomingConnection
          { self with
            resourceName := cap regExpResourceNameStr (Qt.fromAscii clientSocket.available) }
          clientSocket.socketDescriptor).effects
        ++ [Effect.write clientSocket.socketDescriptor
            (Qt.toUtf8 (answerFor
              (cap regExpKeyStr (Qt.fromAscii clientSocket.available))))] := by
  unfold dataReceived
  simp only
  rw [if_neg (by
    intro h
    rcases h with h | h | h | h | h
    · exact hAddress h
    · exact hPort h
    · exact hResource h
    · exact hKey h
    · exact h hVersion)]

theorem written_incomingConnection (self : QWsServer) (socketDescriptor : Int) :
    written (incomingConnection self socketDescriptor).effects = written self.effects := by
  unfold incomingConnection addPendingConnection
  simp only
  split <;> simp [written, List.filterMap_append]

theorem toUtf8_answerFor (key : QString) :
    Qt.toUtf8 (answerFor key)
      = Qt.ofString
          "HTTP/1.1 101 Switching Protocols\r\nUpgrade: websocket\r\nConnection: Upgrade\r\nSec-WebSocket-Accept: "
        ++ computeAcceptV8 key ++ Qt.ofString "\r\n\r\n" := by
  have hascii : ∀ c ∈ answerFor key, c < 0x80 := by
    unfold answerFor
    simp only [List.mem_append]
    intro c hc
    rcases hc with (((hc | hc) | hc) | ((hc | hc) | hc)) | hc
    · exact (by decide : ∀ c ∈ Qt.ofString "HTTP/1.1 101 Switching Protocols\r\n", c < 0x80) c hc
    · exact (by decide : ∀ c ∈ Qt.ofString "Upgrade: websocket\r\n", c < 0x80) c hc
    · exact (by decide : ∀ c ∈ Qt.ofString "Connection: Upgrade\r\n", c < 0x80) c hc
    · exact (by decide : ∀ c ∈ Qt.ofString "Sec-WebSocket-Accept: ", c < 0x80) c hc
    · exact computeAcceptV8_ascii key c hc
    · exact (by decide : ∀ c ∈ Qt.ofString "\r\n", c < 0x80) c hc
    · exact (by decide : ∀ c ∈ Qt.ofString "\r\n", c < 0x80) c hc
  rw [toUtf8_of_ascii _ hascii]
  unfold answerFor
  simp only [List.append_assoc]
  have h1 : Qt.ofString
      "HTTP/1.1 101 Switching Protocols\r\nUpgrade: websocket\r\nConnection: Upgrade\r\nSec-WebSocket-Accept: "
      = Qt.ofString "HTTP/1.1 101 Switching Protocols\r\n"
        ++ (Qt.ofString "Upgrade: websocket\r\n"
        ++ (Qt.ofString "Connection: Upgrade\r\n" ++ Qt.ofString "Sec-WebSocket-Accept: ")) := by
    decide
  have h2 : Qt.ofString "\r\n\r\n" = Qt.ofString "\r\n" ++ Qt.ofString "\r\n" := by decide
  rw [h1, h2]
  simp only [List.append_assoc]

/-- The guard of `dataReceived` on the extracted values, whatever the captures:
when the extracted Host value has no port (it holds no colon, or its field
after the first colon is empty), or no Sec-WebSocket-Key was extracted, or the
extracted version is not the text `8`, `dataReceived` returns before the
handshake: the only member it has changed is `resourceName`, no effect has
been added, and so no byte has been written to a socket. -/
theorem dataReceived_rejects (cap : QString → QString → QString) (self : QWsServer)
    (clientSocket : QTcpSocket)
    (h : 0x3A ∉ cap regExpHostStr (Qt.fromAscii clientSocket.available)
      ∨ hostPortOf (cap regExpHostStr (Qt.fromAscii clientSocket.available)) = []
      ∨ cap regExpKeyStr (Qt.fromAscii clientSocket.available) = []
      ∨ cap regExpVersionStr (Qt.fromAscii clientSocket.available) ≠ Qt.ofString "8") :
    dataReceived cap self (some clientSocket)
        = { self with
            resourceName := cap regExpResourceNameStr (Qt.fromAscii clientSocket.available) }
      ∧ (dataReceived cap self (some clientSocket)).effects = self.effects
      ∧ written (dataReceived cap self (some clientSocket)).effects = written self.effects := by
  have hr := dataReceived_of_rejected cap self clientSocket (by
    rcases h with h | h | h | h
    · exact Or.inr (Or.inl (hostPortOf_of_no_colon _ h))
    · exact Or.inr (Or.inl h)
    · exact Or.inr (Or.inr (Or.inr (Or.inl h)))
    · exact Or.inr (Or.inr (Or.inr (Or.inr h))))
  rw [hr]
  exact ⟨rfl, rfl, rfl⟩

/-- C4: when the extracted resource path, host address, host port and key are all
non-empty and the version is the text `8`, `dataReceived` adds exactly one
write to what had been written before, and its bytes are the status line, the
Upgrade and Connection headers, `Sec-WebSocket-Accept: ` followed by
`computeAcceptV8(key)`, and the closing blank line. -/
theorem dataReceived_answer (cap : QString → QString → QString) (self : QWsServer)
    (clientSocket : QTcpSocket)
    (hAddress : hostAddressOf (cap regExpHostStr (Qt.fromAscii clientSocket.available)) ≠ [])
    (hPort : hostPortOf (cap regExpHostStr (Qt.fromAscii clientSocket.available)) ≠ [])
    (hResource : cap regExpResourceNameStr (Qt.fromAscii clientSocket.available) ≠ [])
    (hKey : cap regExpKeyStr (Qt.fromAscii clientSocket.available) ≠ [])
    (hVersion : cap regExpVersionStr (Qt.fromAscii clientSocket.available) = Qt.ofString "8") :
    written (dataReceived cap self (some clientSocket)).effects
      = written self.effects
        ++ [Qt.ofString
              "HTTP/1.1 101 Switching Protocols\r\nUpgrade: websocket\r\nConnection: Upgrade\r\nSec-WebSocket-Accept: "
            ++ computeAcceptV8 (cap regExpKeyStr (Qt.fromAscii clientSocket.available))
            ++ Qt.ofString "\r\n\r\n"] := by
  rw [dataReceived_of_accepted cap self clientSocket hAddress hPort hResource hKey hVersion,
    toUtf8_answerFor]
  unfold written
  rw [List.filterMap_append]
  have h := written_incomingConnection
    { self with
      resourceName := cap regExpResourceNameStr (Qt.fromAscii clientSocket.available) }
    clientSocket.socketDescriptor
  unfold written at h
  rw [h]
  rfl

/-- C5: whenever `dataReceived` rejects a handshake (the host address, the host
port, the resource name or the key is empty after extraction, or the version is
not the text `8`), the pending-connection queue is what it was, no
`newConnection` signal has been emitted, and no other effect has happened. -/
theorem dataReceived_rejected_no_action (cap : QString → QString → QString)
    (self : QWsServer) (clientSocket : QTcpSocket)
    (h : hostAddressOf (cap regExpHostStr (Qt.fromAscii clientSocket.available)) = []
      ∨ hostPortOf (cap regExpHostStr (Qt.fromAscii clientSocket.available)) = []
      ∨ cap regExpResourceNameStr (Qt.fromAscii clientSocket.available) = []
      ∨ cap regExpKeyStr (Qt.fromAscii clientSocket.available) = []
      ∨ cap regExpVersionStr (Qt.fromAscii clientSocket.available) ≠ Qt.ofString "8") :
    (dataReceived cap self (some clientSocket)).pendingConnections = self.pendingConnections
      ∧ notifications (dataReceived cap self (some clientSocket)).effects
        = notifications self.effects
      ∧ (dataReceived cap self (some clientSocket)).effects = self.effects := by
  rw [dataReceived_of_rejected cap self clientSocket h]
  exact ⟨rfl, rfl, rfl⟩

theorem dataReceived_rejects_witness :
    lineCap regExpKeyStr (Qt.fromAscii keylessSocket.available) = []
      ∧ dataReceived lineCap (empty 30) (some keylessSocket)
        = { empty 30 with
            resourceName := lineCap regExpResourceNameStr (Qt.fromAscii keylessSocket.available) }
      ∧ (dataReceived lineCap (empty 30) (some keylessSocket)).effects = (empty 30).effects
      ∧ written (dataReceived lineCap (empty 30) (some keylessSocket)).effects
        = written (empty 30).effects :=
  ⟨by decide,
    dataReceived_rejects lineCap (empty 30) keylessSocket (Or.inr (Or.inr (Or.inl (by decide))))⟩

theorem dataReceived_answer_witness :
    hostAddressOf (lineCap regExpHostStr (Qt.fromAscii sampleSocket.available))
        = Qt.ofString "example.com"
      ∧ hostPortOf (lineCap regExpHostStr (Qt.fromAscii sampleSocket.available))
        = Qt.ofString "8080"
      ∧ lineCap regExpResourceNameStr (Qt.fromAscii sampleSocket.available) = Qt.ofString "/chat"
      ∧ lineCap regExpKeyStr (Qt.fromAscii sampleSocket.available)
        = Qt.ofString "dGhlIHNhbXBsZSBub25jZQ=="
      ∧ lineCap regExpVersionStr (Qt.fromAscii sampleSocket.available) = Qt.ofString "8"
      ∧ written (dataReceived lineCap (empty 30) (some sampleSocket)).effects
        = [Qt.ofString
            "HTTP/1.1 101 Switching Protocols\r\nUpgrade: websocket\r\nConnection: Upgrade\r\nSec-WebSocket-Accept: s3pPLMBiTxaQ9kYGzzhZRbK+xOo=\r\n\r\n"] :=
  ⟨by decide, by decide, by decide, by decide, by decide,
    (dataReceived_answer lineCap (empty 30) sampleSocket (by decide) (by decide) (by decide)
      (by decide) (by decide)).trans (by decide)⟩

theorem dataReceived_rejected_no_action_witness :
    lineCap regExpKeyStr (Qt.fromAscii keylessSocket.available) = []
      ∧ (dataReceived lineCap (addPendingConnection (empty 30) 4)
          (some keylessSocket)).pendingConnections
        = (addPendingConnection (empty 30) 4).pendingConnections
      ∧ notifications (dataReceived lineCap (addPendingConnection (empty 30) 4)
          (some keylessSocket)).effects
        = notifications (addPendingConnection (empty 30) 4).effects
      ∧ (dataReceived lineCap (addPendingConnection (empty 30) 4) (some keylessSocket)).effects
        = (addPendingConnection (empty 30) 4).effects :=
  ⟨by decide,
    dataReceived_rejected_no_action lineCap (addPendingConnection (empty 30) 4) keylessSocket
      (Or.inr (Or.inr (Or.inr (Or.inl (by decide)))))⟩

end QWsServer


/-! ## Properties of `composeFrame` -/

theorem composeFrame_of_mid (message : QString) (maxFrameBytes : Int)
    (h1 : 126 ≤ message.length) (h2 : message.length ≤ 0xFFFF) :
    composeFrame message maxFrameBytes
      = 0x00 :: (Qt.number message.length ++ Qt.toAscii message) := by
  have h3 : ¬ message.length < 126 := by omega
  have h4 : message.length % 65536 = message.length := Nat.mod_eq_of_lt (by omega)
  simp [composeFrame, h3, h2, h4]

theorem toAscii_length (message : QString) : (Qt.toAscii message).length = message.length := by
  simp [Qt.toAscii]

theorem composeFrame_cases (message : QString) (maxFrameBytes : Int) :
    composeFrame message maxFrameBytes
      = if message.length < 126 then 0x81 :: message.length :: Qt.toAscii message
        else if message.length ≤ 0xFFFF then
          0x00 :: (Qt.number message.length ++ Qt.toAscii message)
        else [] := by
  by_cases h1 : message.length < 126
  · rw [if_pos h1, composeFrame_of_short message maxFrameBytes h1]
  · rw [if_neg h1]
    by_cases h2 : message.length ≤ 0xFFFF
    · rw [if_pos h2, composeFrame_of_mid message maxFrameBytes (by omega) h2]
    · rw [if_neg h2, composeFrame_of_long message maxFrameBytes (by omega)]

theorem decodeFrameVars_first_byte (b0 : Nat) (rest : QByteArray) :
    (decodeFrameVars (b0 :: rest)).FIN = (b0 % 256) >>> 7
      ∧ (decodeFrameVars (b0 :: rest)).RSV1 = ((b0 % 256) &&& 0x7F) >>> 6
      ∧ (decodeFrameVars (b0 :: rest)).RSV2 = ((b0 % 256) &&& 0x3F) >>> 5
      ∧ (decodeFrameVars (b0 :: rest)).RSV3 = ((b0 % 256) &&& 0x1F) >>> 4
      ∧ (decodeFrameVars (b0 :: rest)).Opcode = (b0 % 256) &&& 0x0F :=
  ⟨rfl, rfl, rfl, rfl, rfl⟩

/-- C12 (counterexample): for a message of 126 letters the first byte of the frame
is 0x00, not 0x81, and for a message of 65536 letters the frame is empty and has
no first byte. -/
theorem composeFrame_first_byte_of_long_message :
    (composeFrame (List.replicate 126 0x61) 125).head? = some 0x00
      ∧ (composeFrame (List.replicate 126 0x61) 125).head? ≠ some 0x81
      ∧ (decodeFrameVars (composeFrame (List.replicate 126 0x61) 125)).FIN = 0
      ∧ (decodeFrameVars (composeFrame (List.replicate 126 0x61) 125)).Opcode = 0
      ∧ (composeFrame (List.replicate 65536 0x61) 125).head? = none := by
  have h1 : composeFrame (List.replicate 65536 0x61) 125 = [] :=
    composeFrame_of_long _ _ (by rw [List.length_replicate]; decide)
  rw [h1]
  exact ⟨by decide, by decide, by decide, by decide, rfl⟩

/-- C12 (amended): for every message shorter than 126 the first byte of the frame
is 0x81, that is FIN set, the three RSV bits zero and the opcode 0x1 of text;
for every message of 126 to 65535 code units the first byte is 0x00, that is
FIN clear, the RSV bits zero and the opcode 0. -/
theorem composeFrame_first_byte (message : QString) (maxFrameBytes : Int) :
    (message.length < 126 →
        (composeFrame message maxFrameBytes).head? = some 0x81
          ∧ (decodeFrameVars (composeFrame message maxFrameBytes)).FIN = 1
          ∧ (decodeFrameVars (composeFrame message maxFrameBytes)).RSV1 = 0
          ∧ (decodeFrameVars (composeFrame message maxFrameBytes)).RSV2 = 0
          ∧ (decodeFrameVars (composeFrame message maxFrameBytes)).RSV3 = 0
          ∧ (decodeFrameVars (composeFrame message maxFrameBytes)).Opcode = 1)
      ∧ (126 ≤ message.length → message.length ≤ 0xFFFF →
        (composeFrame message maxFrameBytes).head? = some 0x00
          ∧ (decodeFrameVars (composeFrame message maxFrameBytes)).FIN = 0
          ∧ (decodeFrameVars (composeFrame message maxFrameBytes)).RSV1 = 0
          ∧ (decodeFrameVars (composeFrame message maxFrameBytes)).RSV2 = 0
          ∧ (decodeFrameVars (composeFrame message maxFrameBytes)).RSV3 = 0
          ∧ (decodeFrameVars (composeFrame message maxFrameBytes)).Opcode = 0) := by
  constructor
  · intro h
    rw [composeFrame_of_short message maxFrameBytes h]
    obtain ⟨h1, h2, h3, h4, h5⟩ :=
      decodeFrameVars_first_byte 0x81 (message.length :: Qt.toAscii message)
    rw [h1, h2, h3, h4, h5]
    exact ⟨rfl, by decide, by decide, by decide, by decide, by decide⟩
  · intro h1 h2
    rw [composeFrame_of_mid message maxFrameBytes h1 h2]
    obtain ⟨g1, g2, g3, g4, g5⟩ :=
      decodeFrameVars_first_byte 0x00 (Qt.number message.length ++ Qt.toAscii message)
    rw [g1, g2, g3, g4, g5]
    exact ⟨rfl, by decide, by decide, by decide, by decide, by decide⟩

theorem composeFrame_first_byte_witness :
    (Qt.ofString "Hello").length < 126
      ∧ (composeFrame (Qt.ofString "Hello") 125).head? = some 0x81
      ∧ 126 ≤ (List.replicate 200 0x61).length ∧ (List.replicate 200 0x61).length ≤ 0xFFFF
      ∧ (composeFrame (List.replicate 200 0x61) 125).head? = some 0x00 :=
  ⟨by decide,
    ((composeFrame_first_byte (Qt.ofString "Hello") 125).1 (by decide)).1,
    by decide, by decide,
    ((composeFrame_first_byte (List.replicate 200 0x61) 125).2 (by decide) (by decide)).1⟩

/-- C15: for every message of length `L < 126`, `composeFrame` returns exactly
`L + 2` bytes: 0x81, the byte `L`, and the bytes of the message as `toAscii()`
gives them, which are the code units themselves when these are bytes; the
message `Hello` is framed as 0x81 0x05 `H` `e` `l` `l` `o`. -/
theorem composeFrame_short_message (message : QString) (maxFrameBytes : Int)
    (h : message.length < 126) :
    composeFrame message maxFrameBytes = 0x81 :: message.length :: Qt.toAscii message
      ∧ (composeFrame message maxFrameBytes).length = message.length + 2
      ∧ (isBytes message →
          composeFrame message maxFrameBytes = 0x81 :: message.length :: message)
      ∧ composeFrame (Qt.ofString "Hello") maxFrameBytes
          = [0x81, 0x05, 0x48, 0x65, 0x6C, 0x6C, 0x6F] := by
  have hs := composeFrame_of_short message maxFrameBytes h
  refine ⟨hs, ?_, ?_, ?_⟩
  · rw [hs]
    simp [toAscii_length]
  · intro hb
    rw [hs, toAscii_of_bytes message hb]
  · rw [composeFrame_of_short (Qt.ofString "Hello") maxFrameBytes (by decide)]
    decide

theorem composeFrame_short_message_witness :
    (Qt.ofString "Hi").length < 126
      ∧ composeFrame (Qt.ofString "Hi") 125 = [0x81, 0x02, 0x48, 0x69]
      ∧ (composeFrame (Qt.ofString "Hi") 125).length = 4 :=
  ⟨by decide,
    (composeFrame_short_message (Qt.ofString "Hi") 125 (by decide)).1,
    (composeFrame_short_message (Qt.ofString "Hi") 125 (by decide)).2.1⟩


/-- C16: no message size satisfies the guard of the 8-byte branch of `composeFrame`
(size at least 126, not at most 0xFFFF, and below 0xFFFF); the frame is decided
by the two other branches alone, and for every message longer than 65535 it is
the empty byte array, so no 8-byte length is ever emitted. -/
theorem composeFrame_eight_byte_branch_unreachable (message : QString)
    (maxFrameBytes : Int) :
    ¬ (¬ message.length < 126 ∧ ¬ message.length ≤ 0xFFFF ∧ message.length < 0xFFFF)
      ∧ composeFrame message maxFrameBytes
        = (if message.length < 126 then 0x81 :: message.length :: Qt.toAscii message
           else if message.length ≤ 0xFFFF then
             0x00 :: (Qt.number message.length ++ Qt.toAscii message)
           else [])
      ∧ (0xFFFF < message.length → composeFrame message maxFrameBytes = []) :=
  ⟨by omega, composeFrame_cases message maxFrameBytes,
    fun h => composeFrame_of_long message maxFrameBytes h⟩

theorem composeFrame_eight_byte_branch_unreachable_witness :
    0xFFFF < (List.replicate 65536 0x61).length
      ∧ composeFrame (List.replicate 65536 0x61) 125 = [] :=
  ⟨by rw [List.length_replicate]; decide,
    (composeFrame_eight_byte_branch_unreachable (List.replicate 65536 0x61) 125).2.2
      (by rw [List.length_replicate]; decide)⟩

theorem drop_length_sub (X T : QByteArray) (L : Nat) (h : T.length = L) :
    (X ++ T).drop ((X ++ T).length - L) = T := by
  rw [List.length_append, h, Nat.add_sub_cancel]
  exact List.drop_left X T

/-- C17: `composeFrame` never masks. For every message of length `L ≤ 65535` the
last `L` bytes of the frame are the bytes of the message as `toAscii()` gives
them (the code units themselves when these are bytes), not XORed with
anything; and for `L < 126` the second byte is `L`, whose top bit, the Mask bit,
is clear, and the payload follows the two header bytes directly, with no key
bytes in between. -/
theorem composeFrame_never_masks (message : QString) (maxFrameBytes : Int)
    (h : message.length ≤ 0xFFFF) :
    (composeFrame message maxFrameBytes).drop
        ((composeFrame message maxFrameBytes).length - message.length) = Qt.toAscii message
      ∧ (isBytes message →
          (composeFrame message maxFrameBytes).drop
            ((composeFrame message maxFrameBytes).length - message.length) = message)
      ∧ (message.length < 126 →
          composeFrame message maxFrameBytes = [0x81, message.length] ++ Qt.toAscii message
            ∧ (composeFrame message maxFrameBytes).getD 1 0 >>> 7 = 0
            ∧ (decodeFrameVars (composeFrame message maxFrameBytes)).Mask = 0
            ∧ (decodeFrameVars (composeFrame message maxFrameBytes)).MaskingKey = []) := by
  have hdrop : (composeFrame message maxFrameBytes).drop
      ((composeFrame message maxFrameBytes).length - message.length) = Qt.toAscii message := by
    by_cases h1 : message.length < 126
    · rw [composeFrame_of_short message maxFrameBytes h1]
      exact drop_length_sub [0x81, message.length] (Qt.toAscii message) message.length
        (toAscii_length message)
    · rw [composeFrame_of_mid message maxFrameBytes (by omega) h]
      exact drop_length_sub (0x00 :: Qt.number message.length) (Qt.toAscii message)
        message.length (toAscii_length message)
  refine ⟨hdrop, ?_, ?_⟩
  · intro hb
    rw [hdrop, toAscii_of_bytes message hb]
  · intro h1
    obtain ⟨-, -, h3, h4⟩ := header_bits message.length (by omega)
    have hmod : message.length % 256 = message.length := Nat.mod_eq_of_lt (by omega)
    rw [hmod] at h3 h4
    have h126 : message.length ≠ 126 := by omega
    have h127 : message.length ≠ 127 := by omega
    rw [composeFrame_of_short message maxFrameBytes h1]
    refine ⟨rfl, ?_, ?_, ?_⟩
    · simpa using h3
    · simp [decodeFrameVars, Qt.read, Qt.byteAt, hmod, h3]
    · simp [decodeFrameVars, Qt.read, Qt.byteAt, hmod, h3, h4, h126, h127]

theorem composeFrame_never_masks_witness :
    (Qt.ofString "Hello").length ≤ 0xFFFF
      ∧ (composeFrame (Qt.ofString "Hello") 125).drop
          ((composeFrame (Qt.ofString "Hello") 125).length - (Qt.ofString "Hello").length)
        = Qt.toAscii (Qt.ofString "Hello")
      ∧ (List.replicate 200 0x61).length ≤ 0xFFFF
      ∧ (composeFrame (List.replicate 200 0x61) 125).drop
          ((composeFrame (List.replicate 200 0x61) 125).length
            - (List.replicate 200 0x61).length)
        = Qt.toAscii (List.replicate 200 0x61) :=
  ⟨by decide, (composeFrame_never_masks (Qt.ofString "Hello") 125 (by decide)).1,
    by decide, (composeFrame_never_masks (List.replicate 200 0x61) 125 (by decide)).1⟩


theorem digitChar_decimal (k : Nat) (h : k < 10) :
    0x30 ≤ (Nat.digitChar k).toNat ∧ (Nat.digitChar k).toNat ≤ 0x39 := by
  interval_cases k <;> decide

theorem toDigitsCore_ne_nil (fuel n : Nat) (ds : List Char) (h : ds ≠ []) :
    Nat.toDigitsCore 10 fuel n ds ≠ [] := by
  induction fuel generalizing n ds with
  | zero => simpa [Nat.toDigitsCore] using h
  | succ fuel ih =>
    unfold Nat.toDigitsCore
    simp only
    split
    · simp
    · exact ih _ _ (by simp)

theorem toDigitsCore_decimal (fuel n : Nat) (ds : List Char)
    (h : ∀ c ∈ ds, 0x30 ≤ c.toNat ∧ c.toNat ≤ 0x39) :
    ∀ c ∈ Nat.toDigitsCore 10 fuel n ds, 0x30 ≤ c.toNat ∧ c.toNat ≤ 0x39 := by
  induction fuel generalizing n ds with
  | zero => simpa [Nat.toDigitsCore] using h
  | succ fuel ih =>
    have hd := digitChar_decimal (n % 10) (Nat.mod_lt _ (by decide))
    have hcons : ∀ c ∈ Nat.digitChar (n % 10) :: ds, 0x30 ≤ c.toNat ∧ c.toNat ≤ 0x39 := by
      intro c hc
      rcases List.mem_cons.mp hc with e | e
      · rw [e]; exact hd
      · exact h c e
    unfold Nat.toDigitsCore
    simp only
    split
    · exact hcons
    · exact ih _ _ hcons

theorem number_head (n : Nat) :
    ∃ d ds, Qt.number n = d :: ds ∧ 0x30 ≤ d ∧ d ≤ 0x39 := by
  have hne : Nat.toDigits 10 n ≠ [] := by
    unfold Nat.toDigits Nat.toDigitsCore
    simp only
    split
    · simp
    · exact toDigitsCore_ne_nil _ _ _ (by simp)
  have hall := toDigitsCore_decimal (n + 1) n [] (by simp)
  cases hds : Nat.toDigits 10 n with
  | nil => exact absurd hds hne
  | cons c cs =>
    have hc := hall c (by
      show c ∈ Nat.toDigits 10 n
      rw [hds]; exact List.mem_cons_self _ _)
    exact ⟨c.toNat, cs.map Char.toNat, by simp [Qt.number, hds], hc⟩

theorem digit_bits : ∀ d, d < 0x3A → 0x30 ≤ d → d >>> 7 = 0 ∧ d &&& 0x7F = d := by
  decide

theorem wireHeader_composeFrame_of_short (message : QString) (maxFrameBytes : Int)
    (h : message.length < 126) :
    wireHeader (composeFrame message maxFrameBytes) = some (message.length, 2)
      ∧ (composeFrame message maxFrameBytes).length - 2 = message.length := by
  obtain ⟨-, -, h3, h4⟩ := header_bits message.length (by omega)
  have hmod : message.length % 256 = message.length := Nat.mod_eq_of_lt (by omega)
  rw [hmod] at h3 h4
  have h126 : message.length ≠ 126 := by omega
  have h127 : message.length ≠ 127 := by omega
  rw [composeFrame_of_short message maxFrameBytes h]
  constructor
  · simp [wireHeader, h3, h4, h126, h127]
  · simp [toAscii_length]

theorem wireHeader_composeFrame_of_mid (message : QString) (maxFrameBytes : Int)
    (h1 : 126 ≤ message.length) (h2 : message.length ≤ 0xFFFF) :
    ∃ d, 0x30 ≤ d ∧ d ≤ 0x39
      ∧ wireHeader (composeFrame message maxFrameBytes) = some (d, 2)
      ∧ d < (composeFrame message maxFrameBytes).length - 2 := by
  obtain ⟨d, ds, hnum, hlo, hhi⟩ := number_head message.length
  obtain ⟨hb1, hb2⟩ := digit_bits d (by omega) hlo
  have h126 : d ≠ 126 := by omega
  have h127 : d ≠ 127 := by omega
  refine ⟨d, hlo, hhi, ?_, ?_⟩
  · rw [composeFrame_of_mid message maxFrameBytes h1 h2, hnum]
    simp [wireHeader, hb1, hb2, h126, h127]
  · rw [composeFrame_of_mid message maxFrameBytes h1 h2, hnum]
    simp only [List.length_cons, List.length_append, List.cons_append, toAscii_length]
    omega

/-- C13 (the code at the failing inputs): the wire layout gives a message of 126
bytes the length field `7E 00 7E`, but after the first byte `composeFrame` emits
the text `126` (`31 32 36`) and then the payload; for 300 bytes it emits the text
`300` where the layout has `7E 01 2C`; for 65536 bytes the layout has `7F` and
`00 00 00 00 00 01 00 00`, and `composeFrame` returns the empty array. -/
theorem composeFrame_length_field_as_text :
    wireLengthField 126 = [0x7E, 0x00, 0x7E]
      ∧ (composeFrame (List.replicate 126 0x61) 125).drop 1
        = [0x31, 0x32, 0x36] ++ List.replicate 126 0x61
      ∧ (composeFrame (List.replicate 126 0x61) 125).drop 1
        ≠ wireLengthField 126 ++ List.replicate 126 0x61
      ∧ wireLengthField 300 = [0x7E, 0x01, 0x2C]
      ∧ (composeFrame (List.replicate 300 0x61) 125).drop 1
        = [0x33, 0x30, 0x30] ++ List.replicate 300 0x61
      ∧ wireLengthField 65536 = [0x7F, 0, 0, 0, 0, 0, 1, 0, 0]
      ∧ composeFrame (List.replicate 65536 0x61) 125 = [] := by
  have h1 : composeFrame (List.replicate 65536 0x61) 125 = [] :=
    composeFrame_of_long _ _ (by rw [List.length_replicate]; decide)
  exact ⟨by decide, by decide, by decide, by decide, by decide, by decide, h1⟩

/-- C14 (the code at the failing inputs): read by the wire layout, the frame of a
message of 126 bytes has a 2-byte header that declares 49 payload bytes (its
second byte is the digit `1`), and 128 bytes follow that header; the frame of a
message of 300 bytes declares 51 and 302 bytes follow; the frame of a message of
65536 bytes is empty and has no header at all. -/
theorem composeFrame_declared_length_differs :
    wireHeader (composeFrame (List.replicate 126 0x61) 125) = some (49, 2)
      ∧ (composeFrame (List.replicate 126 0x61) 125).length - 2 = 128
      ∧ wireHeader (composeFrame (List.replicate 300 0x61) 125) = some (51, 2)
      ∧ (composeFrame (List.replicate 300 0x61) 125).length - 2 = 302
      ∧ wireHeader (composeFrame (List.replicate 65536 0x61) 125) = none := by
  have h1 : composeFrame (List.replicate 65536 0x61) 125 = [] :=
    composeFrame_of_long _ _ (by rw [List.length_replicate]; decide)
  rw [h1]
  exact ⟨by decide, by decide, by decide, by decide, rfl⟩


/-! ## Properties of `decodeFrame` on any source -/

theorem unmask_length (n : Nat) (K AD : QByteArray) (h : AD.length ≤ n) :
    (unmask n K AD).length = n := by
  rw [unmask_eq, List.drop_eq_nil_of_le h]
  simp

theorem fromAscii_length_le (ba : QByteArray) : (Qt.fromAscii ba).length ≤ ba.length :=
  (List.takeWhile_sublist _).length_le

theorem decodeFrameVars_payloadLength_lt (socket : QByteArray) :
    (decodeFrameVars socket).PayloadLength < 256 := by
  have h7 : ∀ b : Nat, b &&& 0x7F < 256 := fun b =>
    Nat.lt_of_le_of_lt Nat.and_le_right (by decide)
  unfold decodeFrameVars
  simp only
  split
  · exact Nat.mod_lt _ (by decide)
  · split
    · exact Nat.mod_lt _ (by decide)
    · exact h7 _

theorem decodeFrameVars_applicationData_length (socket : QByteArray) :
    (decodeFrameVars socket).ApplicationData.length
      ≤ (decodeFrameVars socket).PayloadLength := by
  unfold decodeFrameVars
  simp only [Qt.read]
  split
  · exact Nat.le_of_eq (unmask_length _ _ _ (List.length_take_le _ _))
  · exact List.length_take_le _ _

theorem decodeFrameVars_rest_length (socket : QByteArray) :
    socket.length ≤ (decodeFrameVars socket).rest.length + 14
      + (decodeFrameVars socket).PayloadLength := by
  unfold decodeFrameVars
  simp only [Qt.read]
  split <;> split <;> (try split) <;> simp only [List.length_drop] <;> omega

/-- C19: for every input the payload length `decodeFrame` uses is an 8-bit value:
it is the 7-bit field, or after a field of 126 or 127 the converted extension
reduced modulo 256; so at most 255 payload bytes are taken from the source (at
most 14 header bytes and 255 payload bytes are consumed), `ApplicationData` has
at most 255 bytes and the returned string at most 255 characters. -/
theorem decodeFrame_payload_length_8bit (socket : QByteArray) :
    (decodeFrameVars socket).PayloadLength < 256
      ∧ ((decodeFrameVars socket).PayloadLen7 = 126 →
          (decodeFrameVars socket).PayloadLength
            = Qt.toUShort ((socket.drop 2).take 2) % 256)
      ∧ ((decodeFrameVars socket).PayloadLen7 = 127 →
          (decodeFrameVars socket).PayloadLength
            = Qt.toULongLong ((socket.drop 2).take 8) % 256)
      ∧ socket.length ≤ (decodeFrameVars socket).rest.length + 14 + 255
      ∧ (decodeFrameVars socket).ApplicationData.length ≤ 255
      ∧ (decodeFrame socket).1.length ≤ 255 := by
  have h1 := decodeFrameVars_payloadLength_lt socket
  have h2 := decodeFrameVars_applicationData_length socket
  have h3 := decodeFrameVars_rest_length socket
  refine ⟨h1, ?_, ?_, by omega, by omega, ?_⟩
  · intro h
    unfold decodeFrameVars at h ⊢
    simp only [Qt.read] at h ⊢
    rw [if_pos h]
    simp
  · intro h
    unfold decodeFrameVars at h ⊢
    simp only [Qt.read] at h ⊢
    rw [if_neg (by rw [h]; decide), if_pos h]
    simp
  · have h4 := fromAscii_length_le (decodeFrameVars socket).ApplicationData
    show (Qt.fromAscii (decodeFrameVars socket).ApplicationData).length ≤ 255
    omega

theorem decodeFrame_payload_length_8bit_witness :
    (decodeFrameVars
        (0x81 :: 0x7F :: 0x30 :: 0x30 :: 0x30 :: 0x30 :: 0x30 :: 0x33 :: 0x30 :: 0x30
          :: List.replicate 300 0x61)).PayloadLen7 = 127
      ∧ (decodeFrameVars
        (0x81 :: 0x7F :: 0x30 :: 0x30 :: 0x30 :: 0x30 :: 0x30 :: 0x33 :: 0x30 :: 0x30
          :: List.replicate 300 0x61)).PayloadLength
        = Qt.toULongLong [0x30, 0x30, 0x30, 0x30, 0x30, 0x33, 0x30, 0x30] % 256
      ∧ Qt.toULongLong [0x30, 0x30, 0x30, 0x30, 0x30, 0x33, 0x30, 0x30] % 256 = 44 :=
  ⟨by decide,
    (decodeFrame_payload_length_8bit
      (0x81 :: 0x7F :: 0x30 :: 0x30 :: 0x30 :: 0x30 :: 0x30 :: 0x33 :: 0x30 :: 0x30
        :: List.replicate 300 0x61)).2.2.1 (by decide),
    by decide⟩


theorem decodeFrame_unmasked_any (b0 L : Nat) (tail : QByteArray) (hL : L ≤ 125) :
    decodeFrame (b0 :: L :: tail) = (Qt.fromAscii (tail.take L), tail.drop L) := by
  obtain ⟨-, -, h3, h4⟩ := header_bits L (by omega)
  have h126 : L ≠ 126 := by omega
  have h127 : L ≠ 127 := by omega
  simp [decodeFrame, decodeFrameVars, Qt.read, Qt.byteAt, h3, h4, h126, h127]

theorem decodeFrame_masked_any (b0 L : Nat) (tail : QByteArray) (hL : L ≤ 125) :
    decodeFrame (b0 :: (0x80 + L) :: tail)
      = (Qt.fromAscii ((List.range L).map
          (unmaskedByte (tail.take 4) ((tail.drop 4).take L))), tail.drop (4 + L)) := by
  obtain ⟨h1, h2, -, -⟩ := header_bits L (by omega)
  have h126 : L ≠ 126 := by omega
  have h127 : L ≠ 127 := by omega
  have hu : unmask L (tail.take 4) ((tail.drop 4).take L)
      = (List.range L).map (unmaskedByte (tail.take 4) ((tail.drop 4).take L)) := by
    rw [unmask_eq, List.drop_eq_nil_of_le (List.length_take_le _ _), List.append_nil]
  simp [decodeFrame, decodeFrameVars, Qt.read, Qt.byteAt, h1, h2, h126, h127, hu]

theorem decodeFrame_extension16_missing (b0 : Nat) (ext : QByteArray)
    (hext : ext.length < 2) : decodeFrame (b0 :: 126 :: ext) = ([], []) := by
  have hd2 : ext.drop 2 = [] := List.drop_eq_nil_of_le (by omega)
  have e1 : (126 : Nat) &&& 127 = 126 := by decide
  have e3 : (126 : Nat) >>> 7 = 0 := by decide
  simp [decodeFrame, decodeFrameVars, Qt.read, Qt.byteAt, Qt.fromAscii, hd2, e1, e3]

theorem decodeFrame_extension64_missing (b0 : Nat) (ext : QByteArray)
    (hext : ext.length < 8) : decodeFrame (b0 :: 127 :: ext) = ([], []) := by
  have hd8 : ext.drop 8 = [] := List.drop_eq_nil_of_le (by omega)
  have e2 : (127 : Nat) &&& 127 = 127 := by decide
  have e4 : (127 : Nat) >>> 7 = 0 := by decide
  simp [decodeFrame, decodeFrameVars, Qt.read, Qt.byteAt, Qt.fromAscii, hd8, e2, e4]

/-- C11 (counterexample): the source `81 05 48 65` declares 5 payload bytes and holds
2; `decodeFrame` returns those 2 bytes, the very result it gives for the
complete frame `81 02 48 65`. The empty source, the lone byte `81` and the
source `81 7E 33` with half a length extension all give the empty string, what
the complete empty frame `81 00` gives. The source `81 82 41`, a masked frame of
2 bytes with one key byte and no payload, gives the 1-character string `41`. -/
theorem decodeFrame_underrun_not_signalled :
    decodeFrame [0x81, 0x05, 0x48, 0x65] = ([0x48, 0x65], [])
      ∧ decodeFrame [0x81, 0x05, 0x48, 0x65] = decodeFrame [0x81, 0x02, 0x48, 0x65]
      ∧ decodeFrame [] = decodeFrame [0x81, 0x00]
      ∧ decodeFrame [0x81] = decodeFrame [0x81, 0x00]
      ∧ decodeFrame [0x81, 0x7E, 0x33] = decodeFrame [0x81, 0x00]
      ∧ decodeFrame [0x81, 0x00] = ([], [])
      ∧ decodeFrame [0x81, 0x82, 0x41] = ([0x41], []) := by
  decide

namespace QWsServer

/-! ## Order and number of the effects of a handshake -/

theorem dataReceived_accepted_eq (cap : QString → QString → QString) (self : QWsServer)
    (clientSocket : QTcpSocket)
    (hAddress : hostAddressOf (cap regExpHostStr (Qt.fromAscii clientSocket.available)) ≠ [])
    (hPort : hostPortOf (cap regExpHostStr (Qt.fromAscii clientSocket.available)) ≠ [])
    (hResource : cap regExpResourceNameStr (Qt.fromAscii clientSocket.available) ≠ [])
    (hKey : cap regExpKeyStr (Qt.fromAscii clientSocket.available) ≠ [])
    (hVersion : cap regExpVersionStr (Qt.fromAscii clientSocket.available) = Qt.ofString "8") :
    (dataReceived cap self (some clientSocket)).pendingConnections
        = (if self.pendingConnections.length < self.maxPendingConnections then
            self.pendingConnections ++ [clientSocket.socketDescriptor]
          else self.pendingConnections)
      ∧ (dataReceived cap self (some clientSocket)).effects
        = self.effects
          ++ ((if self.pendingConnections.length < self.maxPendingConnections then
                [Effect.enqueue clientSocket.socketDescriptor]
              else [])
            ++ [Effect.newConnection,
                Effect.write clientSocket.socketDescriptor
                  (Qt.ofString
                      "HTTP/1.1 101 Switching Protocols\r\nUpgrade: websocket\r\nConnection: Upgrade\r\nSec-WebSocket-Accept: "
                    ++ computeAcceptV8 (cap regExpKeyStr (Qt.fromAscii clientSocket.available))
                    ++ Qt.ofString "\r\n\r\n")]) := by
  have hcond : ¬ (hostAddressOf (cap regExpHostStr (Qt.fromAscii clientSocket.available)) = []
      ∨ hostPortOf (cap regExpHostStr (Qt.fromAscii clientSocket.available)) = []
      ∨ cap regExpResourceNameStr (Qt.fromAscii clientSocket.available) = []
      ∨ cap regExpKeyStr (Qt.fromAscii clientSocket.available) = []
      ∨ cap regExpVersionStr (Qt.fromAscii clientSocket.available) ≠ Qt.ofString "8") := by
    intro h
    rcases h with h | h | h | h | h
    · exact hAddress h
    · exact hPort h
    · exact hResource h
    · exact hKey h
    · exact h hVersion
  unfold dataReceived
  simp only
  rw [if_neg hcond, toUtf8_answerFor]
  unfold incomingConnection addPendingConnection
  simp only
  split <;> simp

theorem effectsOf_append (before after : QWsServer) (added : List Effect)
    (h : after.effects = before.effects ++ added) : effectsOf before after = added := by
  unfold effectsOf
  rw [h, List.drop_left]

/-- C18 (counterexample): on the sample handshake with an empty queue of capacity 30
the effects of `dataReceived` are, in order, the enqueue of the socket, the
`newConnection` signal and the write of the response: the write does not
precede the enqueue or the signal, it follows both. -/
theorem dataReceived_write_comes_last :
    effectsOf (empty 30) (dataReceived lineCap (empty 30) (some sampleSocket))
        = [Effect.enqueue 5, Effect.newConnection,
            Effect.write 5 (Qt.ofString
              "HTTP/1.1 101 Switching Protocols\r\nUpgrade: websocket\r\nConnection: Upgrade\r\nSec-WebSocket-Accept: s3pPLMBiTxaQ9kYGzzhZRbK+xOo=\r\n\r\n")]
      ∧ ¬ happensBefore
          (Effect.write 5 (Qt.ofString
            "HTTP/1.1 101 Switching Protocols\r\nUpgrade: websocket\r\nConnection: Upgrade\r\nSec-WebSocket-Accept: s3pPLMBiTxaQ9kYGzzhZRbK+xOo=\r\n\r\n"))
          (Effect.enqueue 5)
          (effectsOf (empty 30) (dataReceived lineCap (empty 30) (some sampleSocket)))
      ∧ ¬ happensBefore
          (Effect.write 5 (Qt.ofString
            "HTTP/1.1 101 Switching Protocols\r\nUpgrade: websocket\r\nConnection: Upgrade\r\nSec-WebSocket-Accept: s3pPLMBiTxaQ9kYGzzhZRbK+xOo=\r\n\r\n"))
          Effect.newConnection
          (effectsOf (empty 30) (dataReceived lineCap (empty 30) (some sampleSocket))) := by
  decide


theorem happensBefore_signal_write (socket : Int) (data : QByteArray) :
    happensBefore Effect.newConnection (Effect.write socket data)
        [Effect.newConnection, Effect.write socket data]
      ∧ ¬ happensBefore (Effect.write socket data) Effect.newConnection
        [Effect.newConnection, Effect.write socket data] := by
  simp [happensBefore, List.indexOf_cons]

theorem happensBefore_enqueue_signal_write (socket : Int) (data : QByteArray) :
    happensBefore Effect.newConnection (Effect.write socket data)
        [Effect.enqueue socket, Effect.newConnection, Effect.write socket data]
      ∧ happensBefore (Effect.enqueue socket) (Effect.write socket data)
        [Effect.enqueue socket, Effect.newConnection, Effect.write socket data]
      ∧ happensBefore (Effect.enqueue socket) Effect.newConnection
        [Effect.enqueue socket, Effect.newConnection, Effect.write socket data]
      ∧ ¬ happensBefore (Effect.write socket data) Effect.newConnection
        [Effect.enqueue socket, Effect.newConnection, Effect.write socket data]
      ∧ ¬ happensBefore (Effect.write socket data) (Effect.enqueue socket)
        [Effect.enqueue socket, Effect.newConnection, Effect.write socket data] := by
  simp [happensBefore, List.indexOf_cons]

/-- C18 (amended): on every successful handshake `dataReceived` first registers the
connection and only afterwards writes the response: its effects are, in order,
the enqueue of the socket (when the queue has room), the `newConnection`
signal, and the write of the response; the signal, and the enqueue when there
is one, precede the write, and the write precedes neither. -/
theorem dataReceived_registers_then_writes (cap : QString → QString → QString)
    (self : QWsServer) (clientSocket : QTcpSocket)
    (hAddress : hostAddressOf (cap regExpHostStr (Qt.fromAscii clientSocket.available)) ≠ [])
    (hPort : hostPortOf (cap regExpHostStr (Qt.fromAscii clientSocket.available)) ≠ [])
    (hResource : cap regExpResourceNameStr (Qt.fromAscii clientSocket.available) ≠ [])
    (hKey : cap regExpKeyStr (Qt.fromAscii clientSocket.available) ≠ [])
    (hVersion : cap regExpVersionStr (Qt.fromAscii clientSocket.available) = Qt.ofString "8") :
    effectsOf self (dataReceived cap self (some clientSocket))
        = (if self.pendingConnections.length < self.maxPendingConnections then
            [Effect.enqueue clientSocket.socketDescriptor]
          else [])
          ++ [Effect.newConnection,
              Effect.write clientSocket.socketDescriptor
                (Qt.ofString
                    "HTTP/1.1 101 Switching Protocols\r\nUpgrade: websocket\r\nConnection: Upgrade\r\nSec-WebSocket-Accept: "
                  ++ computeAcceptV8 (cap regExpKeyStr (Qt.fromAscii clientSocket.available))
                  ++ Qt.ofString "\r\n\r\n")]
      ∧ happensBefore Effect.newConnection
          (Effect.write clientSocket.socketDescriptor
            (Qt.ofString
                "HTTP/1.1 101 Switching Protocols\r\nUpgrade: websocket\r\nConnection: Upgrade\r\nSec-WebSocket-Accept: "
              ++ computeAcceptV8 (cap regExpKeyStr (Qt.fromAscii clientSocket.available))
              ++ Qt.ofString "\r\n\r\n"))
          (effectsOf self (dataReceived cap self (some clientSocket)))
      ∧ (self.pendingConnections.length < self.maxPendingConnections →
          happensBefore (Effect.enqueue clientSocket.socketDescriptor)
            (Effect.write clientSocket.socketDescriptor
              (Qt.ofString
                  "HTTP/1.1 101 Switching Protocols\r\nUpgrade: websocket\r\nConnection: Upgrade\r\nSec-WebSocket-Accept: "
                ++ computeAcceptV8 (cap regExpKeyStr (Qt.fromAscii clientSocket.available))
                ++ Qt.ofString "\r\n\r\n"))
            (effectsOf self (dataReceived cap self (some clientSocket))))
      ∧ ¬ happensBefore
          (Effect.write clientSocket.socketDescriptor
            (Qt.ofString
                "HTTP/1.1 101 Switching Protocols\r\nUpgrade: websocket\r\nConnection: Upgrade\r\nSec-WebSocket-Accept: "
              ++ computeAcceptV8 (cap regExpKeyStr (Qt.fromAscii clientSocket.available))
              ++ Qt.ofString "\r\n\r\n"))
          Effect.newConnection
          (effectsOf self (dataReceived cap self (some clientSocket))) := by
  have heff := effectsOf_append self (dataReceived cap self (some clientSocket)) _
    (dataReceived_accepted_eq cap self clientSocket hAddress hPort hResource hKey hVersion).2
  rw [heff]
  by_cases hroom : self.pendingConnections.length < self.maxPendingConnections
  · rw [if_pos hroom]
    obtain ⟨h1, h2, -, h4, -⟩ := happensBefore_enqueue_signal_write
      clientSocket.socketDescriptor
      (Qt.ofString
          "HTTP/1.1 101 Switching Protocols\r\nUpgrade: websocket\r\nConnection: Upgrade\r\nSec-WebSocket-Accept: "
        ++ computeAcceptV8 (cap regExpKeyStr (Qt.fromAscii clientSocket.available))
        ++ Qt.ofString "\r\n\r\n")
    exact ⟨rfl, h1, fun _ => h2, h4⟩
  · rw [if_neg hroom]
    obtain ⟨h1, h2⟩ := happensBefore_signal_write clientSocket.socketDescriptor
      (Qt.ofString
          "HTTP/1.1 101 Switching Protocols\r\nUpgrade: websocket\r\nConnection: Upgrade\r\nSec-WebSocket-Accept: "
        ++ computeAcceptV8 (cap regExpKeyStr (Qt.fromAscii clientSocket.available))
        ++ Qt.ofString "\r\n\r\n")
    exact ⟨rfl, h1, fun h => absurd h hroom, h2⟩

theorem dataReceived_registers_then_writes_witness :
    hostAddressOf (lineCap regExpHostStr (Qt.fromAscii sampleSocket.available)) ≠ []
      ∧ hostPortOf (lineCap regExpHostStr (Qt.fromAscii sampleSocket.available)) ≠ []
      ∧ lineCap regExpResourceNameStr (Qt.fromAscii sampleSocket.available) ≠ []
      ∧ lineCap regExpKeyStr (Qt.fromAscii sampleSocket.available) ≠ []
      ∧ lineCap regExpVersionStr (Qt.fromAscii sampleSocket.available) = Qt.ofString "8"
      ∧ effectsOf (empty 2) (dataReceived lineCap (empty 2) (some sampleSocket))
        = [Effect.enqueue 5, Effect.newConnection,
            Effect.write 5 (Qt.ofString
              "HTTP/1.1 101 Switching Protocols\r\nUpgrade: websocket\r\nConnection: Upgrade\r\nSec-WebSocket-Accept: s3pPLMBiTxaQ9kYGzzhZRbK+xOo=\r\n\r\n")] :=
  ⟨by decide, by decide, by decide, by decide, by decide,
    (dataReceived_registers_then_writes lineCap (empty 2) sampleSocket (by decide) (by decide)
      (by decide) (by decide) (by decide)).1.trans (by decide)⟩

/-- C20: every successful handshake emits exactly one `newConnection` signal,
whether or not the socket was enqueued; when the pending queue is already at
capacity, a successful `dataReceived` leaves the queue as it was (the new
socket is dropped), and its only effects are the `newConnection` signal and the
write of the response. -/
theorem dataReceived_notifies_once (cap : QString → QString → QString)
    (self : QWsServer) (clientSocket : QTcpSocket)
    (hAddress : hostAddressOf (cap regExpHostStr (Qt.fromAscii clientSocket.available)) ≠ [])
    (hPort : hostPortOf (cap regExpHostStr (Qt.fromAscii clientSocket.available)) ≠ [])
    (hResource : cap regExpResourceNameStr (Qt.fromAscii clientSocket.available) ≠ [])
    (hKey : cap regExpKeyStr (Qt.fromAscii clientSocket.available) ≠ [])
    (hVersion : cap regExpVersionStr (Qt.fromAscii clientSocket.available) = Qt.ofString "8") :
    notifications (dataReceived cap self (some clientSocket)).effects
        = notifications self.effects + 1
      ∧ notifications (effectsOf self (dataReceived cap self (some clientSocket))) = 1
      ∧ (self.maxPendingConnections ≤ self.pendingConnections.length →
          (dataReceived cap self (some clientSocket)).pendingConnections
              = self.pendingConnections
            ∧ effectsOf self (dataReceived cap self (some clientSocket))
              = [Effect.newConnection,
                  Effect.write clientSocket.socketDescriptor
                    (Qt.ofString
                        "HTTP/1.1 101 Switching Protocols\r\nUpgrade: websocket\r\nConnection: Upgrade\r\nSec-WebSocket-Accept: "
                      ++ computeAcceptV8 (cap regExpKeyStr (Qt.fromAscii clientSocket.available))
                      ++ Qt.ofString "\r\n\r\n")]) := by
  obtain ⟨hq, he⟩ :=
    dataReceived_accepted_eq cap self clientSocket hAddress hPort hResource hKey hVersion
  have heff := effectsOf_append self (dataReceived cap self (some clientSocket)) _ he
  refine ⟨?_, ?_, ?_⟩
  · rw [he]
    unfold notifications
    split <;> simp [List.count_append, List.count_cons]
  · rw [heff]
    unfold notifications
    split <;> simp [List.count_cons]
  · intro hfull
    rw [hq, heff, if_neg (by omega), if_neg (by omega)]
    exact ⟨rfl, rfl⟩

theorem dataReceived_notifies_once_witness :
    hostAddressOf (lineCap regExpHostStr (Qt.fromAscii sampleSocket.available)) ≠ []
      ∧ hostPortOf (lineCap regExpHostStr (Qt.fromAscii sampleSocket.available)) ≠ []
      ∧ lineCap regExpResourceNameStr (Qt.fromAscii sampleSocket.available) ≠ []
      ∧ lineCap regExpKeyStr (Qt.fromAscii sampleSocket.available) ≠ []
      ∧ lineCap regExpVersionStr (Qt.fromAscii sampleSocket.available) = Qt.ofString "8"
      ∧ fullServer.maxPendingConnections ≤ fullServer.pendingConnections.length
      ∧ notifications (dataReceived lineCap fullServer (some sampleSocket)).effects
        = notifications fullServer.effects + 1
      ∧ (dataReceived lineCap fullServer (some sampleSocket)).pendingConnections = [4]
      ∧ effectsOf fullServer (dataReceived lineCap fullServer (some sampleSocket))
        = [Effect.newConnection,
            Effect.write 5 (Qt.ofString
              "HTTP/1.1 101 Switching Protocols\r\nUpgrade: websocket\r\nConnection: Upgrade\r\nSec-WebSocket-Accept: s3pPLMBiTxaQ9kYGzzhZRbK+xOo=\r\n\r\n")] :=
  ⟨by decide, by decide, by decide, by decide, by decide, by decide,
    (dataReceived_notifies_once lineCap fullServer sampleSocket (by decide) (by decide)
      (by decide) (by decide) (by decide)).1,
    ((dataReceived_notifies_once lineCap fullServer sampleSocket (by decide) (by decide)
      (by decide) (by decide) (by decide)).2.2 (by decide)).1.trans (by decide),
    ((dataReceived_notifies_once lineCap fullServer sampleSocket (by decide) (by decide)
      (by decide) (by decide) (by decide)).2.2 (by decide)).2.trans (by decide)⟩


/-! ## The handshake with QRegExp in the model -/

theorem patterns_render :
    patterns.map Qt.Pattern.render
      = [regExpResourceNameStr, regExpHostStr, regExpKeyStr, regExpVersionStr,
         regExpOriginStr, regExpProtocolStr, regExpExtensionsStr] := by
  decide

theorem regExpCap_sampleSocket :
    regExpCap regExpResourceNameStr (Qt.fromAscii sampleSocket.available) = Qt.ofString "/chat"
      ∧ regExpCap regExpHostStr (Qt.fromAscii sampleSocket.available)
        = Qt.ofString "example.com:8080"
      ∧ regExpCap regExpKeyStr (Qt.fromAscii sampleSocket.available)
        = Qt.ofString "dGhlIHNhbXBsZSBub25jZQ=="
      ∧ regExpCap regExpVersionStr (Qt.fromAscii sampleSocket.available) = Qt.ofString "8"
      ∧ regExpCap regExpKeyStr (Qt.fromAscii keylessSocket.available) = [] := by
  decide

/-- C3 (the code at the failing input): the request of `portlessSocket` has the line
`Host: example.com`, without a port, and a later line that ends with `:8080`.
With minimal matching the Host pattern, whose `.` also matches line breaks,
captures from `example.com` to that `:8080`; `split(':')` makes ` http` the host
port; the guard passes, the socket is enqueued, `newConnection` is emitted and
the 101 response is written. The same request without the later line is
rejected with no effect. -/
theorem dataReceived_accepts_portless_host :
    regExpCap regExpHostStr (Qt.fromAscii portlessSocket.available)
        = Qt.ofString "example.com\r\nSec-WebSocket-Origin: http://example.com:8080"
      ∧ hostAddressOf (regExpCap regExpHostStr (Qt.fromAscii portlessSocket.available))
        = Qt.ofString "example.com\r\nSec-WebSocket-Origin"
      ∧ hostPortOf (regExpCap regExpHostStr (Qt.fromAscii portlessSocket.available))
        = Qt.ofString " http"
      ∧ (dataReceived regExpCap (empty 30) (some portlessSocket)).effects
        = [Effect.enqueue 7, Effect.newConnection,
            Effect.write 7 (Qt.ofString
              "HTTP/1.1 101 Switching Protocols\r\nUpgrade: websocket\r\nConnection: Upgrade\r\nSec-WebSocket-Accept: s3pPLMBiTxaQ9kYGzzhZRbK+xOo=\r\n\r\n")]
      ∧ written (dataReceived regExpCap (empty 30) (some portlessSocket)).effects ≠ []
      ∧ regExpCap regExpHostStr (Qt.fromAscii plainPortlessSocket.available) = []
      ∧ (dataReceived regExpCap (empty 30) (some plainPortlessSocket)).effects = [] := by
  decide

end QWsServer


/-! ## `decodeFrame` on a source that ends early -/

theorem decodeFrame_steps (socket : QByteArray) :
    decodeFrame socket
      = (Qt.fromAscii
          (payloadStep ((Qt.byteAt (socket.drop 1) 0 % 256) >>> 7)
            (lengthStep ((Qt.byteAt (socket.drop 1) 0 % 256) &&& 0x7F) (socket.drop 2)).1
            (lengthStep ((Qt.byteAt (socket.drop 1) 0 % 256) &&& 0x7F) (socket.drop 2)).2).1,
         (payloadStep ((Qt.byteAt (socket.drop 1) 0 % 256) >>> 7)
            (lengthStep ((Qt.byteAt (socket.drop 1) 0 % 256) &&& 0x7F) (socket.drop 2)).1
            (lengthStep ((Qt.byteAt (socket.drop 1) 0 % 256) &&& 0x7F) (socket.drop 2)).2).2) := by
  have h1 : Qt.byteAt (List.take 1 (List.drop 1 socket)) 0 = Qt.byteAt (socket.drop 1) 0 := by
    cases socket.drop 1 <;> rfl
  have h2 : List.drop 1 (List.drop 1 socket) = socket.drop 2 := by
    rw [List.drop_drop]
  unfold decodeFrame decodeFrameVars lengthStep payloadStep
  simp only [Qt.read, h1, h2]

theorem byteAt_append_zeros (t : QByteArray) (m i : Nat) :
    Qt.byteAt (t ++ List.replicate m 0) i = Qt.byteAt t i := by
  unfold Qt.byteAt
  rw [List.getD_eq_getElem?_getD, List.getD_eq_getElem?_getD]
  by_cases h : i < t.length
  · rw [List.getElem?_append_left h]
  · rw [List.getElem?_append_right (by omega), List.getElem?_replicate,
      List.getElem?_eq_none (by omega)]
    split <;> rfl

theorem byteAt_take (t : QByteArray) (k i : Nat) (h : i < k) :
    Qt.byteAt (t.take k) i = Qt.byteAt t i := by
  unfold Qt.byteAt
  rw [List.getD_eq_getElem?_getD, List.getD_eq_getElem?_getD, List.getElem?_take_of_lt h]

theorem drop_append_zeros (t : QByteArray) (m h : Nat) :
    (t ++ List.replicate m 0).drop h = t.drop h ++ List.replicate (m - (h - t.length)) 0 := by
  rw [List.drop_append_eq_append_drop, List.drop_replicate]

theorem fromAscii_take_append_zeros (t : QByteArray) (m : Nat) : ∀ k : Nat,
    Qt.fromAscii ((t ++ List.replicate m 0).take k) = Qt.fromAscii (t.take k) := by
  induction t with
  | nil =>
    intro k
    simp only [List.nil_append, List.take_replicate, List.take_nil]
    unfold Qt.fromAscii
    rw [List.takeWhile_replicate]
    simp
  | cons c cs ih =>
    intro k
    cases k with
    | zero => rfl
    | succ k =>
      have h := ih k
      unfold Qt.fromAscii at h ⊢
      simp only [List.cons_append, List.take_succ_cons, List.takeWhile_cons, h]

theorem toULongLong_take_append_zeros (t : QByteArray) (m k : Nat) :
    Qt.toULongLong ((t ++ List.replicate m 0).take k) = Qt.toULongLong (t.take k) := by
  have h := fromAscii_take_append_zeros t m k
  unfold Qt.fromAscii at h
  unfold Qt.toULongLong
  simp only [h]

theorem lengthStep_append_zeros (len7 : Nat) (t : QByteArray) (m : Nat) :
    ∃ m1, lengthStep len7 (t ++ List.replicate m 0)
      = ((lengthStep len7 t).1, (lengthStep len7 t).2 ++ List.replicate m1 0) := by
  unfold lengthStep
  by_cases h126 : len7 = 126
  · simp only [if_pos h126, Qt.read, Qt.toUShort, toULongLong_take_append_zeros,
      drop_append_zeros]
    exact ⟨_, rfl⟩
  · by_cases h127 : len7 = 127
    · simp only [if_neg h126, if_pos h127, Qt.read, toULongLong_take_append_zeros,
        drop_append_zeros]
      exact ⟨_, rfl⟩
    · simp only [if_neg h126, if_neg h127]
      exact ⟨m, rfl⟩

theorem payloadStep_append_zeros (Mask PayloadLength : Nat) (t : QByteArray) (m : Nat) :
    Qt.fromAscii (payloadStep Mask PayloadLength (t ++ List.replicate m 0)).1
      = Qt.fromAscii (payloadStep Mask PayloadLength t).1 := by
  unfold payloadStep
  by_cases hM : Mask ≠ 0
  · simp only [if_pos hM, Qt.read, drop_append_zeros]
    rw [unmask_eq, unmask_eq, List.drop_eq_nil_of_le (List.length_take_le _ _),
      List.drop_eq_nil_of_le (List.length_take_le _ _)]
    congr 2
    apply List.map_congr_left
    intro i hi
    have hi2 : i < PayloadLength := List.mem_range.mp hi
    unfold unmaskedByte
    rw [byteAt_take _ _ _ hi2, byteAt_take _ _ _ hi2, byteAt_append_zeros,
      byteAt_take _ _ _ (Nat.mod_lt i (by decide)), byteAt_take _ _ _ (Nat.mod_lt i (by decide)),
      byteAt_append_zeros]
  · simp only [if_neg hM, Qt.read]
    exact fromAscii_take_append_zeros t m PayloadLength

theorem decodeFrame_append_zeros (socket : QByteArray) (n : Nat) :
    (decodeFrame (socket ++ List.replicate n 0)).1 = (decodeFrame socket).1 := by
  rw [decodeFrame_steps, decodeFrame_steps]
  simp only [drop_append_zeros, byteAt_append_zeros]
  obtain ⟨m1, h1⟩ := lengthStep_append_zeros
    ((Qt.byteAt (socket.drop 1) 0 % 256) &&& 0x7F) (socket.drop 2) (n - (2 - socket.length))
  rw [h1]
  exact payloadStep_append_zeros _ _ _ _

theorem decodeFrame_rest (socket : QByteArray) :
    (decodeFrame socket).2
      = socket.drop (2
          + (if (decodeFrameVars socket).PayloadLen7 = 126 then 2
             else if (decodeFrameVars socket).PayloadLen7 = 127 then 8 else 0)
          + (if (decodeFrameVars socket).Mask ≠ 0 then 4 else 0)
          + (decodeFrameVars socket).PayloadLength) := by
  unfold decodeFrame decodeFrameVars
  simp only [Qt.read]
  split <;> split <;> (try split) <;> simp only [List.drop_drop]

/-- C11 (amended): `decodeFrame` has no failure result and signals nothing on a
source that ends before all the bytes a frame declares have been supplied. On
every source it reads a missing byte, of the header, the length extension, the
masking key or the payload, as 0: the string it returns is the string it
returns when the source is continued with any number of zero bytes; and the
bytes it leaves unread are those after the 2 header bytes, the 2 or 8 extension
bytes (7-bit field 126 or 127), the 4 key bytes (Mask bit set) and
`PayloadLength` payload bytes, so none when the source ends before. In
particular, with the Mask bit clear, a 7-bit length `L ≤ 125` and only `n < L`
payload bytes, the string is the `n` available bytes up to the first zero byte,
the result for the complete frame that declares `n`, and the source is left
empty; with the Mask bit set, `L ≤ 125` and fewer than `4 + L` bytes after the
header, the string is taken from `L` bytes, byte `i` being payload byte `i` XOR
key byte `i mod 4`, an absent byte counting as 0, up to the first zero byte, and
the source is left empty. -/
theorem decodeFrame_underrun (socket : QByteArray) (n : Nat) (b0 L : Nat)
    (tail mtail : QByteArray)
    (hL : L ≤ 125) (htail : tail.length < L) (hmtail : mtail.length < 4 + L) :
    (decodeFrame (socket ++ List.replicate n 0)).1 = (decodeFrame socket).1
      ∧ (decodeFrame socket).2
        = socket.drop (2
            + (if (decodeFrameVars socket).PayloadLen7 = 126 then 2
               else if (decodeFrameVars socket).PayloadLen7 = 127 then 8 else 0)
            + (if (decodeFrameVars socket).Mask ≠ 0 then 4 else 0)
            + (decodeFrameVars socket).PayloadLength)
      ∧ decodeFrame (b0 :: L :: tail) = (Qt.fromAscii tail, [])
      ∧ decodeFrame (b0 :: L :: tail) = decodeFrame (b0 :: tail.length :: tail)
      ∧ decodeFrame (b0 :: (0x80 + L) :: mtail)
        = (Qt.fromAscii ((List.range L).map (unmaskedByte (mtail.take 4) (mtail.drop 4))),
           []) := by
  have hu := decodeFrame_unmasked_any b0 L tail hL
  rw [List.take_of_length_le (by omega), List.drop_eq_nil_of_le (by omega)] at hu
  have hn := decodeFrame_unmasked_any b0 tail.length tail (by omega)
  rw [List.take_of_length_le (Nat.le_refl _), List.drop_eq_nil_of_le (Nat.le_refl _)] at hn
  have hm := decodeFrame_masked_any b0 L mtail hL
  rw [List.take_of_length_le
      (show (mtail.drop 4).length ≤ L by simp only [List.length_drop]; omega),
    List.drop_eq_nil_of_le (show mtail.length ≤ 4 + L by omega)] at hm
  exact ⟨decodeFrame_append_zeros socket n, decodeFrame_rest socket, hu, hu.trans hn.symm, hm⟩

theorem decodeFrame_underrun_witness :
    (5 : Nat) ≤ 125 ∧ [0x48, 0x65].length < 5 ∧ [0x01, 0x02, 0x03, 0x04, 0x48, 0x65].length < 4 + 5
      ∧ (decodeFrame ([0x81, 0x7E, 0x30, 0x33, 0x61, 0x62] ++ List.replicate 4 0)).1
        = (decodeFrame [0x81, 0x7E, 0x30, 0x33, 0x61, 0x62]).1
      ∧ (decodeFrame [0x81, 0x7E, 0x30, 0x33, 0x61, 0x62]).1 = [0x61, 0x62]
      ∧ (decodeFrame [0x81, 0x7E, 0x00, 0x03, 0x61, 0x62]).2 = [0x61, 0x62]
      ∧ decodeFrame [0x81, 0x05, 0x48, 0x65] = ([0x48, 0x65], [])
      ∧ decodeFrame [0x81, 0x85, 0x01, 0x02, 0x03, 0x04, 0x48, 0x65]
        = ([0x49, 0x67, 0x03, 0x04, 0x01], []) :=
  ⟨by decide, by decide, by decide,
    (decodeFrame_underrun [0x81, 0x7E, 0x30, 0x33, 0x61, 0x62] 4 0x81 5 [0x48, 0x65]
      [0x01, 0x02, 0x03, 0x04, 0x48, 0x65] (by decide) (by decide) (by decide)).1,
    by decide,
    (decodeFrame_underrun [0x81, 0x7E, 0x00, 0x03, 0x61, 0x62] 4 0x81 5 [0x48, 0x65]
      [0x01, 0x02, 0x03, 0x04, 0x48, 0x65] (by decide) (by decide) (by decide)).2.1.trans
      (by decide),
    (decodeFrame_underrun [0x81, 0x7E, 0x30, 0x33, 0x61, 0x62] 4 0x81 5 [0x48, 0x65]
      [0x01, 0x02, 0x03, 0x04, 0x48, 0x65] (by decide) (by decide) (by decide)).2.2.1.trans
      (by decide),
    (decodeFrame_underrun [0x81, 0x7E, 0x30, 0x33, 0x61, 0x62] 4 0x81 5 [0x48, 0x65]
      [0x01, 0x02, 0x03, 0x04, 0x48, 0x65] (by decide) (by decide) (by decide)).2.2.2.2.trans
      (by decide)⟩

end QtWebSocket
